import Mathlib

/-
Verification of the wallhaven_downloader batch download engine.

The repository contains two downloader variants:
* `DownloadWorker` in `test.py` — a sequential worker with per-image retry
  (`download_image_with_retry`) and success/failed/skipped counters
  (`download_page`); modelled in namespace `TestPy`.
* `WallpaperDownloadThread` in `src/main_window.py` — a pooled worker that
  enumerates listing pages first, dedups against the destination directory
  and the resume set, then downloads either through a thread pool or, when
  everything was deduplicated, through an inline "additional pages"
  extension; modelled in namespace `MW`.

Machine integers do not overflow here (all quantities are small counters),
so counters are `Nat`.  Network responses are supplied by oracle functions,
one outcome per attempt or per URL.  Cancellation (`is_running`) is modelled
explicitly where a claim depends on it and fixed to "running" elsewhere.
-/

set_option autoImplicit false

namespace TestPy

/-- Outcome of one HTTP attempt inside `download_image_with_retry`
(`test.py` lines 136-171).  A `resp` is a returned response with its status
code; when the status is 200 the body is streamed and `cancelMidStream`
records whether `is_running` was observed false while iterating chunks
(lines 148-150).  `transportErr` is a `ConnectionError`/`Timeout`/
`ChunkedEncodingError` (line 162); `otherErr` is any other exception
(line 170).  `wrotePartialFile` records whether the error struck after the
destination file had been opened and partially written. -/
inductive AttemptOutcome where
  | resp (status : Nat) (cancelMidStream : Bool)
  | transportErr (wrotePartialFile : Bool)
  | otherErr (wrotePartialFile : Bool)

/-- The message classes returned by `download_image_with_retry`.  The Python
code returns strings; only the exact literal "无权限/不存在" (permDenied) is
later searched for by `download_page` line 228, so the classes are enough.
Exception text embedded in `connFail`/`unkFail` is treated as opaque. -/
inductive DlMsg where
  | ok
  | interrupted
  | permDenied
  | httpFail (status : Nat)
  | connFail
  | unkFail
  | exhausted
  deriving DecidableEq

/-- State of the destination file `file_path` on disk. -/
inductive FileState where
  | absent
  | incomplete
  | complete
  deriving DecidableEq

/-- Result of `download_image_with_retry`: the returned `(success, message)`
pair plus instrumentation — how many GETs were issued, which backoff sleeps
were performed (in order, in seconds), and the file state on return. -/
structure RetryResult where
  success : Bool
  msg : DlMsg
  attempts : Nat
  sleeps : List Nat
  file : FileState
  deriving DecidableEq

/-- The `for attempt in range(max_retries)` loop of
`download_image_with_retry` (`test.py` lines 136-173).  `attemptIdx` is the
Python `attempt` variable, `remaining` the number of loop iterations left
(`remaining = max_retries - attemptIdx`), `fs` the current state of the
destination file and `sleeps` the backoff sleeps performed so far.
A 200 response opens the file in `'wb'` mode (truncating), so it overwrites
`fs` with `complete` or, when cancelled mid-stream, `incomplete`. -/
def retryLoop (oracle : Nat → AttemptOutcome) :
    Nat → Nat → FileState → List Nat → RetryResult
  | attemptIdx, 0, fs, sleeps =>
      -- loop fell through: `return False, "重试次数用尽"`
      { success := false, msg := .exhausted, attempts := attemptIdx,
        sleeps := sleeps, file := fs }
  | attemptIdx, remaining + 1, fs, sleeps =>
      match oracle attemptIdx with
      | .resp status cancelMidStream =>
          if status = 200 then
            if cancelMidStream then
              -- `if not self.is_running: return False, "下载被中断"`
              { success := false, msg := .interrupted,
                attempts := attemptIdx + 1, sleeps := sleeps,
                file := .incomplete }
            else
              { success := true, msg := .ok, attempts := attemptIdx + 1,
                sleeps := sleeps, file := .complete }
          else if status = 403 ∨ status = 404 then
            -- `return False, "无权限/不存在"` — no retry, no sleep
            { success := false, msg := .permDenied,
              attempts := attemptIdx + 1, sleeps := sleeps, file := fs }
          else if remaining ≠ 0 then
            -- `if attempt < max_retries - 1: time.sleep(2 ** attempt)`
            retryLoop oracle (attemptIdx + 1) remaining fs
              (sleeps ++ [2 ^ attemptIdx])
          else
            { success := false, msg := .httpFail status,
              attempts := attemptIdx + 1, sleeps := sleeps, file := fs }
      | .transportErr wrote =>
          let fs2 := if wrote then FileState.incomplete else fs
          if remaining ≠ 0 then
            retryLoop oracle (attemptIdx + 1) remaining fs2
              (sleeps ++ [2 ^ attemptIdx])
          else
            { success := false, msg := .connFail,
              attempts := attemptIdx + 1, sleeps := sleeps, file := fs2 }
      | .otherErr wrote =>
          -- `except Exception: return False, "未知错误: ..."`
          { success := false, msg := .unkFail, attempts := attemptIdx + 1,
            sleeps := sleeps,
            file := if wrote then FileState.incomplete else fs }

/-- `download_image_with_retry(image_url, file_path, filename)`; the target
file does not exist when the call is made (`download_page` line 210). -/
def downloadImageWithRetry (maxRetries : Nat)
    (oracle : Nat → AttemptOutcome) : RetryResult :=
  retryLoop oracle 0 maxRetries .absent []

/-- True for an attempt outcome in which `is_running` is observed false
while streaming a 200 body (the only in-attempt cancellation point). -/
def isCancelOutcome : AttemptOutcome → Bool
  | .resp 200 true => true
  | _ => false

/-- True for the attempt outcomes that `download_image_with_retry` treats as
transient, i.e. sleeps and retries on when attempts remain: a non-200
response that is not 403/404, or a connection/timeout/transport error. -/
def isTransientOutcome : AttemptOutcome → Bool
  | .resp status _ => !(status = 200 ∨ status = 403 ∨ status = 404 : Bool)
  | .transportErr _ => true
  | .otherErr _ => false

/-- True for a 403/404 response (permanent failure, `test.py` line 154). -/
def isPermOutcome : AttemptOutcome → Bool
  | .resp status _ => status = 403 ∨ status = 404
  | _ => false

/-- The success/failed/skipped statistics of `DownloadWorker`. -/
structure Counters where
  success : Nat
  failed : Nat
  skipped : Nat
  deriving DecidableEq

/-- One image descriptor as processed by `download_page` (lines 201-236):
its filename, whether `os.path.exists(file_path)` held at the dedup check,
and the per-attempt network oracle used if it is downloaded. -/
structure ImageJob where
  filename : String
  existsOnDisk : Bool
  oracle : Nat → AttemptOutcome

/-- The destination-file state after `download_page` has handled one
transfer result (lines 214-233).  If the transfer returned because
cancellation was observed (`"下载被中断"`), the loop breaks *before* the
cleanup, leaving the file as the transfer left it; otherwise a failed
transfer's file is deleted (`os.remove` modelled as succeeding) and a
successful transfer's file is kept. -/
def fileAfterHandling (r : RetryResult) : FileState :=
  if r.msg = .interrupted then r.file
  else if r.success then r.file
  else .absent

/-- The per-image loop of `download_page` (`test.py` lines 201-236),
restricted to its effect on the counters.  Returns the final counters and
`true` when the loop ran to completion (`false` when it broke because a
transfer observed cancellation). -/
def processJobs (maxRetries : Nat) : Counters → List ImageJob → Counters × Bool
  | c, [] => (c, true)
  | c, j :: rest =>
    if j.existsOnDisk then
      -- `else: self.skipped_count += 1` (file already exists)
      processJobs maxRetries { c with skipped := c.skipped + 1 } rest
    else
      let r := downloadImageWithRetry maxRetries j.oracle
      if r.msg = .interrupted then
        -- `if not self.is_running: break` — before any counter update
        (c, false)
      else if r.success then
        processJobs maxRetries { c with success := c.success + 1 } rest
      else if r.msg = .permDenied then
        -- `if "无权限/不存在" in message: self.skipped_count += 1`
        processJobs maxRetries { c with skipped := c.skipped + 1 } rest
      else
        processJobs maxRetries { c with failed := c.failed + 1 } rest

/-- One listing page as consumed by `DownloadWorker.run`/`download_page`:
the listing GET's status and the image descriptors of the page. -/
structure TPage where
  listingStatus : Nat
  images : List ImageJob

/-- `DownloadWorker.run` (lines 112-126) driving `download_page` over pages
1..n.  A non-200 listing status makes `download_page` emit an error and
return early (lines 194-196), after which `run` continues with the next
page.  Returns the final counters, the number of listing pages fetched, and
whether the run completed without observing cancellation. -/
def runPages (maxRetries : Nat) : Counters → List TPage → Counters × Nat × Bool
  | c, [] => (c, 0, true)
  | c, p :: rest =>
    if p.listingStatus = 200 then
      match processJobs maxRetries c p.images with
      | (c2, true) =>
        match runPages maxRetries c2 rest with
        | (c3, n, done) => (c3, n + 1, done)
      | (c2, false) => (c2, 1, false)
    else
      match runPages maxRetries c rest with
      | (c2, n, done) => (c2, n + 1, done)

/-- Number of image descriptors enumerated across the successfully fetched
listing pages of a run. -/
def enumeratedImages (pages : List TPage) : Nat :=
  (pages.map (fun p => if p.listingStatus = 200 then p.images.length else 0)).sum

end TestPy

namespace MW

/-- A listing-page response for `WallpaperDownloadThread`: the HTTP status
of the listing GET and the `"path"` URLs of its `"data"` array (used only
when the status is 200). -/
structure PageResp where
  status : Nat
  urls : List String

/-- An asset GET response (`requests.get(img_url, ...)`) that returned:
only the status matters for control flow; a 200 body is written to disk.
In the pooled phase this status-only type is a faithful quotient, because
`download_single_image` catches every exception and turns it into the same
failure tuple as a non-200 status; the extension phase's inline GET is not
wrapped in a `try`, so its exception path is modelled separately by
`ExtAsset` and `extImageStepX`. -/
structure AssetResp where
  status : Nat

/-- `os.path.basename(img_url)`: the characters after the last `'/'`. -/
def basename (u : String) : String :=
  ⟨u.data.foldl (fun acc c => if c = '/' then [] else acc ++ [c]) []⟩

/-- The filename filter of `run` lines 154-156:
`filename.startswith("wallhaven-") and (filename.endswith(".jpg") or
filename.endswith(".png"))`. -/
def wallhavenPattern (f : String) : Bool :=
  "wallhaven-".data.isPrefixOf f.data &&
    (".jpg".data.isSuffixOf f.data || ".png".data.isSuffixOf f.data)

/-- `existing_files` (lines 152-156): the destination-directory listing
restricted to names matching `wallhavenPattern`. -/
def existingFiles (dirListing : List String) : List String :=
  dirListing.filter (fun f => wallhavenPattern f)

/-- Result of the page-enumeration loop (`run` lines 120-146): the
collected URLs, the number of listing pages fetched, and `some status`
when a listing GET returned a non-200 status (which makes `run` emit
`download_failed` and return). -/
structure EnumResult where
  urls : List String
  pagesFetched : Nat
  failStatus : Option Nat

/-- The page-enumeration loop over the given page ids.  In a fresh run
(`is_resuming` false) every URL of every page is collected; on a non-200
status the loop returns at once, fetching no further page. -/
def enumeratePages (fetch : Nat → PageResp) : List Nat → EnumResult
  | [] => { urls := [], pagesFetched := 0, failStatus := none }
  | p :: rest =>
    let r := fetch p
    if r.status = 200 then
      let e := enumeratePages fetch rest
      { urls := r.urls ++ e.urls, pagesFetched := e.pagesFetched + 1,
        failStatus := e.failStatus }
    else
      { urls := [], pagesFetched := 1, failStatus := some r.status }

/-- The URLs a fully successful enumeration collects: the concatenation of
the page bodies in page order. -/
def allListedUrls (fetch : Nat → PageResp) (ids : List Nat) : List String :=
  (ids.map (fun p => (fetch p).urls)).flatten

/-- An observation point of a run: the values of `downloaded_images`,
`duplicate_images` and `total_images` right after a counter update. -/
structure Obs where
  downloaded : Nat
  duplicates : Nat
  total : Nat
  deriving DecidableEq

/-- Boolean form of the spec invariant
`downloaded_images + duplicate_images ≤ total_images` at one observation
point. -/
def obsOk (s : Obs) : Bool :=
  decide (s.downloaded + s.duplicates ≤ s.total)

/-- The dedup test of `run` line 166:
`filename not in existing_files and filename not in self.downloaded_files`. -/
def isNeededDedup (existing downloadedFiles : List String)
    (fname : String) : Bool :=
  !(decide (fname ∈ existing)) && !(decide (fname ∈ downloadedFiles))

/-- Result of the dedup pass (`run` lines 160-171): the URLs kept for
download (`unique_image_urls`), the final `duplicate_images` value, and the
observation points produced by its `duplicate_images += 1` updates. -/
structure DedupResult where
  uniqueUrls : List String
  duplicates : Nat
  states : List Obs

/-- The dedup pass over `all_image_urls`.  `total` is the already-fixed
`total_images`; `dup` the running `duplicate_images`. -/
def dedupPhase (existing downloadedFiles : List String) (total : Nat) :
    List String → Nat → DedupResult
  | [], dup => { uniqueUrls := [], duplicates := dup, states := [] }
  | url :: rest, dup =>
    let fname := basename url
    if isNeededDedup existing downloadedFiles fname then
      let r := dedupPhase existing downloadedFiles total rest dup
      { r with uniqueUrls := url :: r.uniqueUrls }
    else
      let r := dedupPhase existing downloadedFiles total rest (dup + 1)
      { r with states := ⟨0, dup + 1, total⟩ :: r.states }

/-- The progress value emitted by `run` lines 243 and 309:
`min(100, int((downloaded_images / unique_images_to_download) * 100))`,
with Python's float arithmetic idealized to exact rational arithmetic, so
the inner `int(...)` is `⌊100·d/u⌋`. -/
def pct (d u : Nat) : Nat :=
  min 100 ((100 * d) / u)

/-- Result of the pooled download phase (`run` lines 263-310): the final
`downloaded_images`, the progress percentages emitted in order, the
observation points of its counter updates, and the final
`downloaded_files`. -/
structure PoolResult where
  downloaded : Nat
  events : List Nat
  states : List Obs
  downloadedFiles : List String

/-- The `as_completed` loop of the pooled phase, processing the scheduled
URLs in completion order (`order`).  Each URL's outcome is
`download_single_image` (lines 68-104): a 200 asset GET writes the file,
records the filename in `downloaded_files` and counts as success; any other
status or exception yields a failure result `(filename, None, False)`,
for which the handler increments nothing (the `download_failed` branch at
line 300 is dead because the failure tuple always carries the bare
filename).  Both outcomes fall through to the progress emission guarded by
`unique_images_to_download > 0` (lines 307-310).  `u` is the fixed
`unique_images_to_download`; `dup`/`total` are fixed here and only recorded
in observation points. -/
def poolPhase (asset : String → AssetResp) (u dup total : Nat) :
    Nat → List String → List String → PoolResult
  | d, downloadedFiles, [] =>
    { downloaded := d, events := [], states := [],
      downloadedFiles := downloadedFiles }
  | d, downloadedFiles, url :: order =>
    let fname := basename url
    if (asset url).status = 200 then
      let d2 := d + 1
      let r := poolPhase asset u dup total d2 (downloadedFiles ++ [fname]) order
      { downloaded := r.downloaded,
        events := (if u ≠ 0 then [pct d2 u] else []) ++ r.events,
        states := ⟨d2, dup, total⟩ :: r.states,
        downloadedFiles := r.downloadedFiles }
    else
      let r := poolPhase asset u dup total d downloadedFiles order
      { r with events := (if u ≠ 0 then [pct d u] else []) ++ r.events }

/-- The state mutated by the "additional pages" extension
(`run` lines 182-250). -/
structure ExtState where
  d : Nat
  u : Nat
  dup : Nat
  total : Nat
  downloadedFiles : List String
  events : List Nat
  states : List Obs

/-- The dedup test of the extension (`run` line 214) — textually the same
expression as line 166. -/
def isNeededExt (existing downloadedFiles : List String)
    (fname : String) : Bool :=
  !(decide (fname ∈ existing)) && !(decide (fname ∈ downloadedFiles))

/-- Processing of one image of an additional page (`run` lines 209-250)
in the exception-free quotient, i.e. restricted to executions in which the
inline `requests.get` of line 219 returns a response: the dedup check,
then the GET; on 200 the file is written, `downloaded_files` gains the
name, `downloaded_images` *and* `unique_images_to_download` are both
incremented (lines 239-240) and a progress event is emitted; any non-200
status is skipped (403/404 silently, others with a log line); a duplicate
increments `duplicate_images`.  The GET's uncaught-exception path is
modelled by `extImageStepX`; `extImageStepX_agrees` shows this function is
exactly its restriction to responses. -/
def extImageStep (asset : String → AssetResp) (existing : List String)
    (st : ExtState) (url : String) : ExtState :=
  let fname := basename url
  if isNeededExt existing st.downloadedFiles fname then
    if (asset url).status = 200 then
      let d2 := st.d + 1
      let u2 := st.u + 1
      { st with
        d := d2
        u := u2
        downloadedFiles := st.downloadedFiles ++ [fname]
        events := st.events ++ [pct d2 u2]
        states := st.states ++ [⟨d2, st.dup, st.total⟩] }
    else
      st
  else
    { st with
      dup := st.dup + 1
      states := st.states ++ [⟨st.d, st.dup + 1, st.total⟩] }

/-- The images of one additional page, in listing order. -/
def extImages (asset : String → AssetResp) (existing : List String) :
    ExtState → List String → ExtState
  | st, [] => st
  | st, url :: rest =>
    extImages asset existing (extImageStep asset existing st url) rest

/-- The additional-pages loop (`run` lines 192-250) in the exception-free
quotient, i.e. restricted to executions in which the additional-page
listing GET of line 199 returns a response.  A non-200 listing status on
an additional page is logged and skipped (`continue`, line 203) — unlike
the initial enumeration it does not abort.  Returns the final state and
the number of additional listing pages fetched.  The GET's
uncaught-exception path is modelled by `extPagesX`; `extPagesX_agrees`
shows this function is exactly its restriction to responses. -/
def extPages (fetch : Nat → PageResp) (asset : String → AssetResp)
    (existing : List String) : ExtState → List Nat → ExtState × Nat
  | st, [] => (st, 0)
  | st, p :: rest =>
    if (fetch p).status = 200 then
      let next :=
        extPages fetch asset existing
          (extImages asset existing st (fetch p).urls) rest
      (next.1, next.2 + 1)
    else
      let next := extPages fetch asset existing st rest
      (next.1, next.2 + 1)

/-- `images_per_page = 64` (`run` line 183). -/
def imagesPerPage : Nat := 64

/-- The additional page ids fetched by the extension: a count fixed up
front as `(target_total_images - total_images + images_per_page - 1) //
images_per_page` (line 190), for pages `page_count + 1 ...`. -/
def extraPageIds (pageCount total : Nat) : List Nat :=
  let target := imagesPerPage * pageCount
  let needed := (target - total + imagesPerPage - 1) / imagesPerPage
  List.range' (pageCount + 1) needed

/-- Terminal outcome of `WallpaperDownloadThread.run`: the
`download_completed` signal, the `download_failed` signal carrying a bad
listing status (line 130), or the `download_failed` signal emitted by the
outer `except` of `run` (lines 319-320) when an uncaught exception
propagates out of the run body. -/
inductive RunOutcome where
  | completed
  | failedRun (status : Nat)
  | failedExc
  deriving DecidableEq

/-- Inputs of one fresh (non-resuming, non-cancelled) run:
the listing oracle, the asset oracle, the requested page count, the
destination-directory listing, and the order in which the pool's futures
complete (a permutation of the scheduled URLs in a real run). -/
structure RunInput where
  fetch : Nat → PageResp
  asset : String → AssetResp
  pageCount : Nat
  dirListing : List String
  completionOrder : List String

/-- Everything observable about one run of `WallpaperDownloadThread.run`. -/
structure RunResult where
  outcome : RunOutcome
  pagesFetched : Nat
  total : Nat
  uniqueUrls : List String
  finalD : Nat
  finalDup : Nat
  finalU : Nat
  events : List Nat
  states : List Obs
  extensionRan : Bool
  extPagesFetched : Nat
  downloadedFiles : List String
  deriving DecidableEq

/-- The body of `WallpaperDownloadThread.run` after a fully successful
enumeration (lines 148-320), in the exception-free quotient in which every
extension-phase GET returns a response (so the outer `except` of lines
319-320 never fires and every branch ends in `download_completed`): set
`total_images`, filter the directory listing, dedup, then either (all
deduplicated and short of the 64·page_count target) run the inline
additional-pages extension, or (all deduplicated but target met) finish at
once, or download the kept URLs through the pool.  The full model with the
outer-except path is `mwRunOkX`/`mwRunX`; `mwRunX_agrees` shows this
function is exactly its restriction to responses. -/
def mwRunOk (inp : RunInput) (allUrls : List String)
    (pagesFetched : Nat) : RunResult :=
  let total := allUrls.length
  let existing := existingFiles inp.dirListing
  let dd := dedupPhase existing [] total allUrls 0
  if dd.uniqueUrls.length = 0 then
    if total < imagesPerPage * inp.pageCount then
      let st0 : ExtState :=
        { d := 0, u := 0, dup := dd.duplicates, total := total,
          downloadedFiles := [], events := [], states := [] }
      let ex :=
        extPages inp.fetch inp.asset existing st0
          (extraPageIds inp.pageCount total)
      { outcome := .completed, pagesFetched := pagesFetched + ex.2,
        total := total, uniqueUrls := [], finalD := ex.1.d,
        finalDup := ex.1.dup, finalU := ex.1.u, events := ex.1.events,
        states := dd.states ++ ex.1.states, extensionRan := true,
        extPagesFetched := ex.2, downloadedFiles := ex.1.downloadedFiles }
    else
      { outcome := .completed, pagesFetched := pagesFetched,
        total := total, uniqueUrls := [], finalD := 0,
        finalDup := dd.duplicates, finalU := 0, events := [],
        states := dd.states, extensionRan := false,
        extPagesFetched := 0, downloadedFiles := [] }
  else
    let pr := poolPhase inp.asset dd.uniqueUrls.length dd.duplicates total
      0 [] inp.completionOrder
    { outcome := .completed, pagesFetched := pagesFetched,
      total := total, uniqueUrls := dd.uniqueUrls, finalD := pr.downloaded,
      finalDup := dd.duplicates, finalU := dd.uniqueUrls.length,
      events := pr.events, states := dd.states ++ pr.states,
      extensionRan := false, extPagesFetched := 0,
      downloadedFiles := pr.downloadedFiles }

/-- `WallpaperDownloadThread.run` (lines 106-320) for a fresh run with no
cancellation: enumerate pages 1..page_count; a non-200 listing status emits
`download_failed` and returns before anything is scheduled; otherwise the
collected URLs are handed to `mwRunOk`. -/
def mwRun (inp : RunInput) : RunResult :=
  let e := enumeratePages inp.fetch (List.range' 1 inp.pageCount)
  match e.failStatus with
  | some s =>
    { outcome := .failedRun s, pagesFetched := e.pagesFetched, total := 0,
      uniqueUrls := [], finalD := 0, finalDup := 0, finalU := 0,
      events := [], states := [], extensionRan := false,
      extPagesFetched := 0, downloadedFiles := [] }
  | none => mwRunOk inp e.urls e.pagesFetched

/-- Outcome of the extension's additional-page listing GET
(`main_window.py` line 199, `requests.get(url, cookies=self.cookies)`):
the call is not wrapped in a `try` and has no timeout, so it either
returns a response or raises. -/
inductive ExtListing where
  | resp (status : Nat) (urls : List String)
  | raisesExc
  deriving DecidableEq

/-- Outcome of the extension's inline asset GET (`main_window.py`
line 219, `requests.get(img_url, cookies=self.cookies)`): not wrapped in
a `try`, no timeout — it either returns a response or raises. -/
inductive ExtAsset where
  | resp (status : Nat)
  | raisesExc
  deriving DecidableEq

/-- Read a listing outcome back as a response (arbitrary on the raising
constructor; used to state that a non-raising oracle is a response
oracle). -/
def ExtListing.toResp : ExtListing → PageResp
  | .resp s us => ⟨s, us⟩
  | .raisesExc => ⟨0, []⟩

/-- Read an asset outcome back as a response (arbitrary on the raising
constructor). -/
def ExtAsset.toResp : ExtAsset → AssetResp
  | .resp s => ⟨s⟩
  | .raisesExc => ⟨0⟩

/-- Inputs of a fresh, non-cancelled run in the full model.  The
oracles `fetch` and `asset` answer the initial-enumeration listing GETs
and the pooled `download_single_image` GETs with responses (both claim
families condition on returned statuses, and `download_single_image`
catches every exception anyway); `extListing` and `extAsset` answer the
extension phase's two inline GETs, which are not protected by any `try`
and may therefore raise. -/
structure RunInputX where
  fetch : Nat → PageResp
  asset : String → AssetResp
  extListing : Nat → ExtListing
  extAsset : String → ExtAsset
  pageCount : Nat
  dirListing : List String
  completionOrder : List String

/-- The exception-free projection of a full-model input: drop the
extension oracles. -/
def RunInputX.forget (inpX : RunInputX) : RunInput :=
  { fetch := inpX.fetch, asset := inpX.asset, pageCount := inpX.pageCount,
    dirListing := inpX.dirListing, completionOrder := inpX.completionOrder }

/-- Processing of one image of an additional page in the full model
(`run` lines 209-250): the dedup check, then the inline GET of line 219.
A raised exception propagates — the Boolean component records that an
exception is in flight, and once it is set nothing further runs (it will
reach `run`'s outer `except`, lines 319-320). -/
def extImageStepX (extAsset : String → ExtAsset) (existing : List String)
    (st : ExtState × Bool) (url : String) : ExtState × Bool :=
  if st.2 then st
  else
    let fname := basename url
    if isNeededExt existing st.1.downloadedFiles fname then
      match extAsset url with
      | .raisesExc => (st.1, true)
      | .resp status =>
        if status = 200 then
          let d2 := st.1.d + 1
          let u2 := st.1.u + 1
          ({ st.1 with
             d := d2
             u := u2
             downloadedFiles := st.1.downloadedFiles ++ [fname]
             events := st.1.events ++ [pct d2 u2]
             states := st.1.states ++ [⟨d2, st.1.dup, st.1.total⟩] }, false)
        else
          (st.1, false)
    else
      ({ st.1 with
         dup := st.1.dup + 1
         states := st.1.states ++ [⟨st.1.d, st.1.dup + 1, st.1.total⟩] },
       false)

/-- The images of one additional page in the full model; a propagating
exception skips everything after it. -/
def extImagesX (extAsset : String → ExtAsset) (existing : List String) :
    ExtState × Bool → List String → ExtState × Bool
  | st, [] => st
  | st, url :: rest =>
    extImagesX extAsset existing (extImageStepX extAsset existing st url)
      rest

/-- The additional-pages loop in the full model (`run` lines 192-250).
A non-200 listing response is skipped (`continue`, line 203); a raised
exception — from the listing GET itself or propagating out of the page's
images — aborts the loop, so no further listing GET is issued.  The
second component counts the listing GETs actually issued. -/
def extPagesX (extListing : Nat → ExtListing)
    (extAsset : String → ExtAsset) (existing : List String) :
    ExtState × Bool → List Nat → (ExtState × Bool) × Nat
  | st, [] => (st, 0)
  | st, p :: rest =>
    if st.2 then (st, 0)
    else
      match extListing p with
      | .raisesExc => ((st.1, true), 1)
      | .resp status urls =>
        if status = 200 then
          let next := extPagesX extListing extAsset existing
            (extImagesX extAsset existing st urls) rest
          (next.1, next.2 + 1)
        else
          let next := extPagesX extListing extAsset existing st rest
          (next.1, next.2 + 1)

/-- The post-enumeration body of `run` in the full model: identical to
`mwRunOk` except that the extension phase runs `extPagesX`, and an
exception propagating out of it reaches the outer `except` of lines
319-320, which emits the terminal `download_failed` event instead of
`download_completed`. -/
def mwRunOkX (inp : RunInputX) (allUrls : List String)
    (pagesFetched : Nat) : RunResult :=
  let total := allUrls.length
  let existing := existingFiles inp.dirListing
  let dd := dedupPhase existing [] total allUrls 0
  if dd.uniqueUrls.length = 0 then
    if total < imagesPerPage * inp.pageCount then
      let st0 : ExtState :=
        { d := 0, u := 0, dup := dd.duplicates, total := total,
          downloadedFiles := [], events := [], states := [] }
      let ex :=
        extPagesX inp.extListing inp.extAsset existing (st0, false)
          (extraPageIds inp.pageCount total)
      { outcome := if ex.1.2 then .failedExc else .completed,
        pagesFetched := pagesFetched + ex.2,
        total := total, uniqueUrls := [], finalD := ex.1.1.d,
        finalDup := ex.1.1.dup, finalU := ex.1.1.u,
        events := ex.1.1.events,
        states := dd.states ++ ex.1.1.states, extensionRan := true,
        extPagesFetched := ex.2,
        downloadedFiles := ex.1.1.downloadedFiles }
    else
      { outcome := .completed, pagesFetched := pagesFetched,
        total := total, uniqueUrls := [], finalD := 0,
        finalDup := dd.duplicates, finalU := 0, events := [],
        states := dd.states, extensionRan := false,
        extPagesFetched := 0, downloadedFiles := [] }
  else
    let pr := poolPhase inp.asset dd.uniqueUrls.length dd.duplicates total
      0 [] inp.completionOrder
    { outcome := .completed, pagesFetched := pagesFetched,
      total := total, uniqueUrls := dd.uniqueUrls, finalD := pr.downloaded,
      finalDup := dd.duplicates, finalU := dd.uniqueUrls.length,
      events := pr.events, states := dd.states ++ pr.states,
      extensionRan := false, extPagesFetched := 0,
      downloadedFiles := pr.downloadedFiles }

/-- `WallpaperDownloadThread.run` in the full model: enumeration as in
`mwRun`, then `mwRunOkX`. -/
def mwRunX (inp : RunInputX) : RunResult :=
  let e := enumeratePages inp.fetch (List.range' 1 inp.pageCount)
  match e.failStatus with
  | some s =>
    { outcome := .failedRun s, pagesFetched := e.pagesFetched, total := 0,
      uniqueUrls := [], finalD := 0, finalDup := 0, finalU := 0,
      events := [], states := [], extensionRan := false,
      extPagesFetched := 0, downloadedFiles := [] }
  | none => mwRunOkX inp e.urls e.pagesFetched

/-- Number of URLs in a list whose asset GET returns status 200. -/
def okCount (asset : String → AssetResp) (urls : List String) : Nat :=
  (urls.filter (fun url => (asset url).status == 200)).length

/-- The destination directory as a partial map from filename to content;
`open(file_path, 'wb')` truncates and rewrites, so a write replaces
whatever content the name previously had. -/
def writeDisk (disk : String → Option String) (fname body : String) :
    String → Option String :=
  fun g => if g = fname then some body else disk g

end MW

namespace PyJson

/-- The Python values that occur in the `resume_state` dict built by
`WallpaperDownloadThread.stop` (`main_window.py` lines 328-340): strings,
ints, and the two `set` objects `processed_urls`/`downloaded_files`. -/
inductive PyVal where
  | pystr (s : String)
  | pyint (n : Nat)
  | pysetStr (xs : List String)
  deriving DecidableEq

/-- Whether `json.dump` can encode the value: `str` and `int` are
serializable, a Python `set` raises
`TypeError: Object of type set is not JSON serializable`. -/
def jsonEncodable : PyVal → Bool
  | .pystr _ => true
  | .pyint _ => true
  | .pysetStr _ => false

/-- The `resume_state` dict built by `stop` (lines 328-340), field for
field.  `processed_urls` and `downloaded_files` are the thread's `set`
objects (initialized as `set()` in `__init__` line 64-65 and grown with
`.add`). -/
def stopResumeState (currentPage : Nat)
    (processedUrls downloadedFiles : List String) (baseUrl : String)
    (pageCount : Nat) (downloadDir : String)
    (totalImages downloadedImages duplicateImages uniqueImages
      concurrentDownloads : Nat) : List (String × PyVal) :=
  [("current_page", .pyint currentPage),
   ("processed_urls", .pysetStr processedUrls),
   ("downloaded_files", .pysetStr downloadedFiles),
   ("base_url", .pystr baseUrl),
   ("page_count", .pyint pageCount),
   ("download_dir", .pystr downloadDir),
   ("total_images", .pyint totalImages),
   ("downloaded_images", .pyint downloadedImages),
   ("duplicate_images", .pyint duplicateImages),
   ("unique_images_to_download", .pyint uniqueImages),
   ("concurrent_downloads", .pyint concurrentDownloads)]

/-- Whether the `json.dump(resume_state, f, ...)` call of `stop`
(lines 344-346) succeeds, i.e. whether every value of the dict is
serializable.  When it does not, the `except` clause swallows the
`TypeError` and no sidecar file is written. -/
def stopSaveSucceeds (kvs : List (String × PyVal)) : Bool :=
  kvs.all (fun kv => jsonEncodable kv.2)

end PyJson

/-- A fresh pooled run scheduling one transfer whose asset GET answers
HTTP 500: page 1 lists one new image, the directory is empty, the pool
processes the single future. -/
def mwOneFailInput : MW.RunInput :=
  { fetch := fun _ => ⟨200, ["http://img.test/wallhaven-aaaaaa.jpg"]⟩
    asset := fun _ => ⟨500⟩
    pageCount := 1
    dirListing := []
    completionOrder := ["http://img.test/wallhaven-aaaaaa.jpg"] }

/-- A fresh pooled run scheduling one transfer that succeeds. -/
def mwOneOkInput : MW.RunInput :=
  { fetch := fun _ => ⟨200, ["http://img.test/wallhaven-aaaaaa.jpg"]⟩
    asset := fun _ => ⟨200⟩
    pageCount := 1
    dirListing := []
    completionOrder := ["http://img.test/wallhaven-aaaaaa.jpg"] }

/-- A fresh run that enters the additional-pages extension: the single
requested page lists one image already on disk, so everything is
deduplicated while `total_images = 1 < 64`, and the extra page 2 lists one
new image that downloads successfully. -/
def mwExtensionInput : MW.RunInput :=
  { fetch := fun p =>
      if p = 1 then ⟨200, ["http://img.test/wallhaven-x.jpg"]⟩
      else ⟨200, ["http://img.test/wallhaven-y.jpg"]⟩
    asset := fun _ => ⟨200⟩
    pageCount := 1
    dirListing := ["wallhaven-x.jpg"]
    completionOrder := [] }

/-- A run whose second listing page answers HTTP 500 while the first
succeeds (with an empty data array). -/
def mwPage2FailInput : MW.RunInput :=
  { fetch := fun p => if p = 1 then ⟨200, []⟩ else ⟨500, []⟩
    asset := fun _ => ⟨200⟩
    pageCount := 2
    dirListing := []
    completionOrder := [] }

/-- The same second-page-fails run in the full model, with extension
oracles that never raise (the run aborts before the extension anyway). -/
def mwxPage2FailInput : MW.RunInputX :=
  { fetch := fun p => if p = 1 then ⟨200, []⟩ else ⟨500, []⟩
    asset := fun _ => ⟨200⟩
    extListing := fun _ => .resp 200 []
    extAsset := fun _ => .resp 200
    pageCount := 2
    dirListing := []
    completionOrder := [] }

/-- A full-model run that enters the extension (its one listed image is
already on disk) and whose extension page lists one fresh image whose
inline asset GET raises an exception. -/
def mwxExtExcInput : MW.RunInputX :=
  { fetch := fun _ => ⟨200, ["http://img.test/wallhaven-x.jpg"]⟩
    asset := fun _ => ⟨200⟩
    extListing := fun _ => .resp 200 ["http://img.test/wallhaven-z.jpg"]
    extAsset := fun _ => .raisesExc
    pageCount := 1
    dirListing := ["wallhaven-x.jpg"]
    completionOrder := [] }

/-- Two fresh image URLs whose asset GETs succeed, fed to both transfer
paths to compare them. -/
def twoFreshUrls : List String :=
  ["http://img.test/wallhaven-p.jpg", "http://img.test/wallhaven-q.jpg"]

/-- The sequential worker's run over two pages: page 1's listing GET
answers HTTP 500, page 2 succeeds and lists one new image whose download
succeeds. -/
def tpFailThenOkPages : List TestPy.TPage :=
  [⟨500, []⟩,
   ⟨200, [⟨"wallhaven-b.jpg", false, fun _ => .resp 200 false⟩]⟩]

/-- One sequential-worker page with two descriptors: a fresh one that
downloads successfully and one already present on disk. -/
def tpTwoJobPages : List TestPy.TPage :=
  [⟨200, [⟨"wallhaven-a.jpg", false, fun _ => .resp 200 false⟩,
          ⟨"wallhaven-b.jpg", true, fun _ => .resp 200 false⟩]⟩]

namespace TestPy

/-- The retry loop issues at most `remaining` further GET attempts. -/
theorem retryLoop_attempts_le (o : Nat → AttemptOutcome) :
    ∀ (remaining attemptIdx : Nat) (fs : FileState) (sleeps : List Nat),
      (retryLoop o attemptIdx remaining fs sleeps).attempts ≤
        attemptIdx + remaining := by
  intro remaining
  induction remaining with
  | zero =>
    intro attemptIdx fs sleeps
    simp [retryLoop]
  | succ n ih =>
    intro attemptIdx fs sleeps
    cases ho : o attemptIdx with
    | resp status cancel =>
      simp only [retryLoop, ho]
      split_ifs <;>
        first
          | exact le_trans (ih _ _ _) (by omega)
          | omega
          | (simp; try omega)
    | transportErr w =>
      simp only [retryLoop, ho]
      split_ifs <;>
        first
          | exact le_trans (ih _ _ _) (by omega)
          | omega
          | (simp; try omega)
    | otherErr w =>
      simp only [retryLoop, ho]
      omega

/-- If no attempt observes cancellation mid-stream, the retry loop never
returns the interrupted message. -/
theorem retryLoop_no_interrupt (o : Nat → AttemptOutcome)
    (h : ∀ i, isCancelOutcome (o i) = false) :
    ∀ (remaining attemptIdx : Nat) (fs : FileState) (sleeps : List Nat),
      (retryLoop o attemptIdx remaining fs sleeps).msg ≠ .interrupted := by
  intro remaining
  induction remaining with
  | zero =>
    intro attemptIdx fs sleeps
    simp [retryLoop]
  | succ n ih =>
    intro attemptIdx fs sleeps
    have hc := h attemptIdx
    cases ho : o attemptIdx with
    | resp status cancel =>
      rw [ho] at hc
      simp only [retryLoop, ho]
      split_ifs with h1 h2 h3 h4
      · subst h1
        subst h2
        simp [isCancelOutcome] at hc
      · simp
      · simp
      · exact ih _ _ _
      · simp
    | transportErr w =>
      simp only [retryLoop, ho]
      split_ifs <;> first | exact ih _ _ _ | simp
    | otherErr w =>
      simp [retryLoop, ho]

/-- Shifting a power-of-two backoff schedule by one attempt. -/
theorem sleeps_shift (a k : Nat) :
    (2 ^ a) :: (List.range k).map (fun j => 2 ^ (a + 1 + j)) =
      (List.range (k + 1)).map (fun j => 2 ^ (a + j)) := by
  rw [List.range_succ_eq_map, List.map_cons, List.map_map]
  refine congrArg₂ _ (by simp) ?hh
  refine List.map_congr_left ?hm
  intro x _
  simp [Function.comp]
  ring_nf

/-- If the first `k` attempts are transient and attempt `k` returns 403 or
404, the retry loop stops at attempt `k` with the permanent-failure
message: no further attempt is issued and no sleep follows the 403/404
response. -/
theorem retryLoop_perm (o : Nat → AttemptOutcome) :
    ∀ (k remaining attemptIdx : Nat) (fs : FileState) (sleeps : List Nat),
      k < remaining →
      (∀ j, j < k → isTransientOutcome (o (attemptIdx + j)) = true) →
      isPermOutcome (o (attemptIdx + k)) = true →
      retryLoop o attemptIdx remaining fs sleeps =
        { success := false, msg := .permDenied,
          attempts := attemptIdx + k + 1,
          sleeps := sleeps ++ (List.range k).map (fun j => 2 ^ (attemptIdx + j)),
          file := (retryLoop o attemptIdx remaining fs sleeps).file } := by
  intro k
  induction k with
  | zero =>
    intro remaining attemptIdx fs sleeps hk _ hperm
    rw [Nat.add_zero] at hperm
    obtain ⟨n, rfl⟩ : ∃ n, remaining = n + 1 := ⟨remaining - 1, by omega⟩
    cases ho : o attemptIdx with
    | resp status cancel =>
      rw [ho] at hperm
      simp only [isPermOutcome, decide_eq_true_eq] at hperm
      have h200 : ¬status = 200 := by omega
      simp [retryLoop, ho, h200, hperm]
    | transportErr w => rw [ho] at hperm; simp [isPermOutcome] at hperm
    | otherErr w => rw [ho] at hperm; simp [isPermOutcome] at hperm
  | succ k ih =>
    intro remaining attemptIdx fs sleeps hk htrans hperm
    obtain ⟨n, rfl⟩ : ∃ n, remaining = n + 1 := ⟨remaining - 1, by omega⟩
    have ht0 := htrans 0 (Nat.succ_pos k)
    rw [Nat.add_zero] at ht0
    have htrans' : ∀ j, j < k →
        isTransientOutcome (o (attemptIdx + 1 + j)) = true := by
      intro j hj
      have := htrans (j + 1) (by omega)
      rwa [show attemptIdx + (j + 1) = attemptIdx + 1 + j from by omega] at this
    have hperm' : isPermOutcome (o (attemptIdx + 1 + k)) = true := by
      rwa [show attemptIdx + (k + 1) = attemptIdx + 1 + k from by omega] at hperm
    have hn : k < n := by omega
    cases ho : o attemptIdx with
    | resp status cancel =>
      rw [ho] at ht0
      simp only [isTransientOutcome, Bool.not_eq_true', decide_eq_false_iff_not] at ht0
      push_neg at ht0
      obtain ⟨h200, h403, h404⟩ := ht0
      have hnz : n ≠ 0 := by omega
      have hnp : ¬(status = 403 ∨ status = 404) := by
        intro hc; rcases hc with hc | hc <;> omega
      simp only [retryLoop, ho, if_neg h200, if_neg hnp, if_pos hnz]
      rw [ih n (attemptIdx + 1) fs (sleeps ++ [2 ^ attemptIdx]) hn htrans' hperm']
      simp only [RetryResult.mk.injEq, List.append_assoc, List.singleton_append,
        true_and, and_true]
      exact ⟨by omega, by rw [sleeps_shift]⟩
    | transportErr w =>
      have hnz : n ≠ 0 := by omega
      simp only [retryLoop, ho, if_pos hnz]
      rw [ih n (attemptIdx + 1) (if w = true then FileState.incomplete else fs)
        (sleeps ++ [2 ^ attemptIdx]) hn htrans' hperm']
      simp only [RetryResult.mk.injEq, List.append_assoc, List.singleton_append,
        true_and, and_true]
      exact ⟨by omega, by rw [sleeps_shift]⟩
    | otherErr w =>
      rw [ho] at ht0
      simp [isTransientOutcome] at ht0

/-- If every attempt the loop can make is transient, the loop uses all
`remaining` attempts, sleeps `2^attempt` between consecutive attempts, and
returns a failure that is neither permanent, nor an interruption, nor a
success. -/
theorem retryLoop_transient (o : Nat → AttemptOutcome) :
    ∀ (remaining attemptIdx : Nat) (fs : FileState) (sleeps : List Nat),
      remaining ≠ 0 →
      (∀ j, j < remaining → isTransientOutcome (o (attemptIdx + j)) = true) →
      (retryLoop o attemptIdx remaining fs sleeps).success = false ∧
      (retryLoop o attemptIdx remaining fs sleeps).msg ≠ .interrupted ∧
      (retryLoop o attemptIdx remaining fs sleeps).msg ≠ .permDenied ∧
      (retryLoop o attemptIdx remaining fs sleeps).attempts =
        attemptIdx + remaining ∧
      (retryLoop o attemptIdx remaining fs sleeps).sleeps =
        sleeps ++
          (List.range (remaining - 1)).map (fun j => 2 ^ (attemptIdx + j)) := by
  intro remaining
  induction remaining with
  | zero => intro attemptIdx fs sleeps h0; exact absurd rfl h0
  | succ n ih =>
    intro attemptIdx fs sleeps _ htrans
    have ht0 := htrans 0 (Nat.succ_pos n)
    rw [Nat.add_zero] at ht0
    by_cases hn0 : n = 0
    · subst hn0
      cases ho : o attemptIdx with
      | resp status cancel =>
        rw [ho] at ht0
        simp only [isTransientOutcome, Bool.not_eq_true',
          decide_eq_false_iff_not] at ht0
        push_neg at ht0
        obtain ⟨h200, h403, h404⟩ := ht0
        have hnp : ¬(status = 403 ∨ status = 404) := by
          intro hc; rcases hc with hc | hc <;> omega
        simp [retryLoop, ho, h200, hnp]
      | transportErr w =>
        simp [retryLoop, ho]
      | otherErr w =>
        rw [ho] at ht0
        simp [isTransientOutcome] at ht0
    · have htrans' : ∀ j, j < n →
          isTransientOutcome (o (attemptIdx + 1 + j)) = true := by
        intro j hj
        have := htrans (j + 1) (by omega)
        rwa [show attemptIdx + (j + 1) = attemptIdx + 1 + j from by omega]
          at this
      have hshift : ∀ sl : List Nat,
          (sl ++ [2 ^ attemptIdx]) ++
              (List.range (n - 1)).map (fun j => 2 ^ (attemptIdx + 1 + j)) =
            sl ++ (List.range n).map (fun j => 2 ^ (attemptIdx + j)) := by
        intro sl
        rw [List.append_assoc, List.singleton_append, sleeps_shift]
        rw [show n - 1 + 1 = n from by omega]
      cases ho : o attemptIdx with
      | resp status cancel =>
        rw [ho] at ht0
        simp only [isTransientOutcome, Bool.not_eq_true',
          decide_eq_false_iff_not] at ht0
        push_neg at ht0
        obtain ⟨h200, h403, h404⟩ := ht0
        have hnp : ¬(status = 403 ∨ status = 404) := by
          intro hc; rcases hc with hc | hc <;> omega
        simp only [retryLoop, ho, if_neg h200, if_neg hnp, if_pos hn0]
        obtain ⟨s1, s2, s3, s4, s5⟩ :=
          ih (attemptIdx + 1) fs (sleeps ++ [2 ^ attemptIdx]) hn0 htrans'
        refine ⟨s1, s2, s3, by omega, ?_⟩
        rw [s5, hshift]
        simp
      | transportErr w =>
        simp only [retryLoop, ho, if_pos hn0]
        obtain ⟨s1, s2, s3, s4, s5⟩ :=
          ih (attemptIdx + 1) (if w = true then FileState.incomplete else fs)
            (sleeps ++ [2 ^ attemptIdx]) hn0 htrans'
        refine ⟨s1, s2, s3, by omega, ?_⟩
        rw [s5, hshift]
        simp
      | otherErr w =>
        rw [ho] at ht0
        simp [isTransientOutcome] at ht0

/-- When no transfer of the job list observes cancellation, the per-image
loop runs to completion and each job increments exactly one of the three
counters, so their sum grows by exactly the number of jobs. -/
theorem processJobs_complete (maxRetries : Nat) :
    ∀ (jobs : List ImageJob) (c : Counters),
      (∀ j ∈ jobs, ∀ i, isCancelOutcome (j.oracle i) = false) →
      (processJobs maxRetries c jobs).2 = true ∧
      (processJobs maxRetries c jobs).1.success +
          (processJobs maxRetries c jobs).1.failed +
          (processJobs maxRetries c jobs).1.skipped =
        c.success + c.failed + c.skipped + jobs.length := by
  intro jobs
  induction jobs with
  | nil => intro c _; simp [processJobs]
  | cons j rest ih =>
    intro c hnc
    have hji := hnc j (List.mem_cons_self j rest)
    have hrest : ∀ x ∈ rest, ∀ i, isCancelOutcome (x.oracle i) = false :=
      fun x hx => hnc x (List.mem_cons_of_mem _ hx)
    have hni : (downloadImageWithRetry maxRetries j.oracle).msg ≠
        DlMsg.interrupted :=
      retryLoop_no_interrupt j.oracle hji maxRetries 0 .absent []
    by_cases hd : j.existsOnDisk
    · simp only [processJobs, if_pos hd]
      obtain ⟨d1, d2⟩ := ih { c with skipped := c.skipped + 1 } hrest
      refine ⟨d1, ?_⟩
      rw [d2]
      simp only [List.length_cons]
      omega
    · simp only [processJobs, if_neg hd]
      rw [if_neg hni]
      by_cases hsucc : (downloadImageWithRetry maxRetries j.oracle).success =
          true
      · rw [if_pos hsucc]
        obtain ⟨d1, d2⟩ := ih { c with success := c.success + 1 } hrest
        refine ⟨d1, ?_⟩
        rw [d2]
        simp only [List.length_cons]
        omega
      · rw [if_neg hsucc]
        by_cases hperm : (downloadImageWithRetry maxRetries j.oracle).msg =
            DlMsg.permDenied
        · rw [if_pos hperm]
          obtain ⟨d1, d2⟩ := ih { c with skipped := c.skipped + 1 } hrest
          refine ⟨d1, ?_⟩
          rw [d2]
          simp only [List.length_cons]
          omega
        · rw [if_neg hperm]
          obtain ⟨d1, d2⟩ := ih { c with failed := c.failed + 1 } hrest
          refine ⟨d1, ?_⟩
          rw [d2]
          simp only [List.length_cons]
          omega

/-- When no transfer of the run observes cancellation, `run` fetches every
listing page (even after a failed listing fetch) and the three counters'
sum grows by exactly the number of descriptors enumerated on the
successfully fetched pages. -/
theorem runPages_complete (maxRetries : Nat) :
    ∀ (pages : List TPage) (c : Counters),
      (∀ p ∈ pages, ∀ j ∈ p.images, ∀ i, isCancelOutcome (j.oracle i) = false) →
      (runPages maxRetries c pages).2.2 = true ∧
      (runPages maxRetries c pages).2.1 = pages.length ∧
      (runPages maxRetries c pages).1.success +
          (runPages maxRetries c pages).1.failed +
          (runPages maxRetries c pages).1.skipped =
        c.success + c.failed + c.skipped + enumeratedImages pages := by
  intro pages
  induction pages with
  | nil => intro c _; simp [runPages, enumeratedImages]
  | cons p rest ih =>
    intro c hnc
    have hp := hnc p (List.mem_cons_self p rest)
    have hrest : ∀ x ∈ rest, ∀ j ∈ x.images, ∀ i,
        isCancelOutcome (j.oracle i) = false :=
      fun x hx => hnc x (List.mem_cons_of_mem _ hx)
    by_cases hs : p.listingStatus = 200
    · have hpc := processJobs_complete maxRetries p.images c hp
      rcases hq : processJobs maxRetries c p.images with ⟨c2, done⟩
      rw [hq] at hpc
      obtain ⟨hdone, hsum⟩ := hpc
      simp only at hdone hsum
      subst hdone
      obtain ⟨r1, r2, r3⟩ := ih c2 hrest
      rcases hr : runPages maxRetries c2 rest with ⟨c3, n, dn⟩
      rw [hr] at r1 r2 r3
      simp only at r1 r2 r3
      simp only [runPages, if_pos hs, hq, hr]
      refine ⟨r1, by simp [r2], ?_⟩
      simp only [enumeratedImages, List.map_cons, List.sum_cons, if_pos hs]
      simp only [enumeratedImages] at r3
      omega
    · obtain ⟨r1, r2, r3⟩ := ih c hrest
      rcases hr : runPages maxRetries c rest with ⟨c3, n, dn⟩
      rw [hr] at r1 r2 r3
      simp only at r1 r2 r3
      simp only [runPages, if_neg hs, hr]
      refine ⟨r1, by simp [r2], ?_⟩
      simp only [enumeratedImages, List.map_cons, List.sum_cons, if_neg hs]
      simp only [enumeratedImages] at r3
      omega

end TestPy

namespace MW

/-- When every listing fetch of the page range succeeds, enumeration
fetches all the pages and collects all their URLs. -/
theorem enumeratePages_ok (fetch : Nat → PageResp) :
    ∀ ids : List Nat, (∀ p ∈ ids, (fetch p).status = 200) →
      enumeratePages fetch ids =
        { urls := allListedUrls fetch ids, pagesFetched := ids.length,
          failStatus := none } := by
  intro ids
  induction ids with
  | nil => intro _; simp [enumeratePages, allListedUrls]
  | cons p rest ih =>
    intro h
    have hp := h p (List.mem_cons_self p rest)
    rw [enumeratePages, if_pos hp, ih (fun q hq => h q (List.mem_cons_of_mem _ hq))]
    simp [allListedUrls]

/-- The first non-200 listing status aborts enumeration: the failing page
is the last one fetched. -/
theorem enumeratePages_fail (fetch : Nat → PageResp) :
    ∀ (pre : List Nat) (p : Nat) (post : List Nat),
      (∀ q ∈ pre, (fetch q).status = 200) →
      (fetch p).status ≠ 200 →
      (enumeratePages fetch (pre ++ p :: post)).pagesFetched =
          pre.length + 1 ∧
      (enumeratePages fetch (pre ++ p :: post)).failStatus =
          some (fetch p).status := by
  intro pre
  induction pre with
  | nil =>
    intro p post _ hp
    rw [List.nil_append]
    constructor <;> simp [enumeratePages, if_neg hp]
  | cons q rest ih =>
    intro p post hpre hp
    have hq := hpre q (List.mem_cons_self q rest)
    obtain ⟨i1, i2⟩ := ih p post (fun x hx => hpre x (List.mem_cons_of_mem _ hx)) hp
    rw [List.cons_append]
    constructor
    · rw [enumeratePages, if_pos hq]
      simp only
      rw [i1]
      simp
    · rw [enumeratePages, if_pos hq]
      simp only
      exact i2

/-- The dedup pass partitions the enumerated URLs: kept plus duplicates
equals processed. -/
theorem dedupPhase_count (existing downloadedFiles : List String)
    (total : Nat) :
    ∀ (urls : List String) (dup : Nat),
      (dedupPhase existing downloadedFiles total urls dup).uniqueUrls.length +
          (dedupPhase existing downloadedFiles total urls dup).duplicates =
        urls.length + dup := by
  intro urls
  induction urls with
  | nil => intro dup; simp [dedupPhase]
  | cons url rest ih =>
    intro dup
    by_cases hn : isNeededDedup existing downloadedFiles (basename url) = true
    · simp only [dedupPhase, if_pos hn, List.length_cons]
      have := ih dup
      omega
    · rw [dedupPhase, if_neg hn]
      have := ih (dup + 1)
      simp only [List.length_cons]
      omega

/-- Every observation point of the dedup pass satisfies the invariant, as
long as the running duplicate count plus the remaining URLs stays within
`total`. -/
theorem dedupPhase_states (existing downloadedFiles : List String)
    (total : Nat) :
    ∀ (urls : List String) (dup : Nat),
      dup + urls.length ≤ total →
      (dedupPhase existing downloadedFiles total urls dup).states.all obsOk =
        true := by
  intro urls
  induction urls with
  | nil => intro dup _; simp [dedupPhase]
  | cons url rest ih
  =>
    intro dup hb
    simp only [List.length_cons] at hb
    by_cases hn : isNeededDedup existing downloadedFiles (basename url) = true
    · simp only [dedupPhase, if_pos hn]
      exact ih dup (by omega)
    · rw [dedupPhase, if_neg hn]
      simp only [List.all_cons, Bool.and_eq_true]
      refine ⟨?_, ih (dup + 1) (by omega)⟩
      simp only [obsOk, decide_eq_true_eq]
      omega

/-- A URL that passes the dedup test is kept for download. -/
theorem dedupPhase_keeps (existing downloadedFiles : List String)
    (total : Nat) :
    ∀ (urls : List String) (dup : Nat) (url : String),
      url ∈ urls →
      isNeededDedup existing downloadedFiles (basename url) = true →
      url ∈ (dedupPhase existing downloadedFiles total urls dup).uniqueUrls := by
  intro urls
  induction urls with
  | nil => intro dup url h; simp at h
  | cons x rest ih =>
    intro dup url hmem hneed
    rcases List.mem_cons.mp hmem with rfl | hmem
    · simp only [dedupPhase, if_pos hneed]
      exact List.mem_cons_self _ _
    · by_cases hn : isNeededDedup existing downloadedFiles (basename x) = true
      · simp only [dedupPhase, if_pos hn]
        exact List.mem_cons_of_mem _ (ih dup url hmem hneed)
      · rw [dedupPhase, if_neg hn]
        exact ih (dup + 1) url hmem hneed

/-- A progress percentage never exceeds 100. -/
theorem pct_le_100 (d u : Nat) : pct d u ≤ 100 :=
  min_le_left _ _

/-- The progress percentage is monotone in the completed count. -/
theorem pct_mono (d d' u : Nat) (h : d ≤ d') : pct d u ≤ pct d' u := by
  unfold pct
  exact min_le_min (le_refl 100)
    (Nat.div_le_div_right (Nat.mul_le_mul_left 100 h))

/-- With all work done the progress percentage is exactly 100. -/
theorem pct_self (k : Nat) (hk : k ≠ 0) : pct k k = 100 := by
  unfold pct
  rw [Nat.mul_div_cancel 100 (Nat.pos_of_ne_zero hk)]
  simp

/-- The pooled phase counts exactly the URLs whose asset GET returned
status 200: failed transfers increment nothing. -/
theorem poolPhase_downloaded (asset : String → AssetResp) (u dup total : Nat) :
    ∀ (order : List String) (d : Nat) (downloadedFiles : List String),
      (poolPhase asset u dup total d downloadedFiles order).downloaded =
        d + okCount asset order := by
  intro order
  induction order with
  | nil => intro d df; simp [poolPhase, okCount]
  | cons url rest ih =>
    intro d df
    by_cases hs : (asset url).status = 200
    · simp only [poolPhase, if_pos hs, ih]
      simp [okCount, List.filter_cons, hs]
      try omega
    · simp only [poolPhase, if_neg hs, ih]
      simp [okCount, List.filter_cons, hs]

/-- Every observation point of the pooled phase satisfies the invariant
when at most `u` completions are processed and `u + dup ≤ total`. -/
theorem poolPhase_states (asset : String → AssetResp) (u dup total : Nat)
    (hut : u + dup ≤ total) :
    ∀ (order : List String) (d : Nat) (downloadedFiles : List String),
      d + order.length ≤ u →
      (poolPhase asset u dup total d downloadedFiles order).states.all obsOk =
        true := by
  intro order
  induction order with
  | nil => intro d df _; simp [poolPhase]
  | cons url rest ih =>
    intro d df hb
    simp only [List.length_cons] at hb
    by_cases hs : (asset url).status = 200
    · simp only [poolPhase, if_pos hs, List.all_cons, Bool.and_eq_true]
      refine ⟨?_, ih (d + 1) (df ++ [basename url]) (by omega)⟩
      simp only [obsOk, decide_eq_true_eq]
      omega
    · simp only [poolPhase, if_neg hs]
      exact ih d df (by omega)

/-- The pooled phase's progress events are bounded by 100, bounded below
by the percentage at entry, and non-decreasing in emission order. -/
theorem poolPhase_events (asset : String → AssetResp) (u dup total : Nat) :
    ∀ (order : List String) (d : Nat) (downloadedFiles : List String),
      ((poolPhase asset u dup total d downloadedFiles order).events.all
        (fun e => decide (e ≤ 100)) = true) ∧
      (∀ e ∈ (poolPhase asset u dup total d downloadedFiles order).events,
        pct d u ≤ e) ∧
      List.Chain' (· ≤ ·)
        (poolPhase asset u dup total d downloadedFiles order).events := by
  intro order
  induction order with
  | nil => intro d df; simp [poolPhase]
  | cons url rest ih =>
    intro d df
    by_cases hs : (asset url).status = 200
    · simp only [poolPhase, if_pos hs]
      obtain ⟨i1, i2, i3⟩ := ih (d + 1) (df ++ [basename url])
      by_cases hu : u ≠ 0
      · simp only [if_pos hu, List.singleton_append]
        refine ⟨?_, ?_, ?_⟩
        · simp only [List.all_cons, Bool.and_eq_true]
          exact ⟨by simp [pct_le_100], i1⟩
        · intro e he
          rcases List.mem_cons.mp he with rfl | he
          · exact pct_mono d (d + 1) u (by omega)
          · exact le_trans (pct_mono d (d + 1) u (by omega)) (i2 e he)
        · rw [List.chain'_cons']
          exact ⟨fun y hy => i2 y (List.mem_of_mem_head? hy), i3⟩
      · simp only [if_neg hu, List.nil_append]
        refine ⟨i1, ?_, i3⟩
        intro e he
        exact le_trans (pct_mono d (d + 1) u (by omega)) (i2 e he)
    · simp only [poolPhase, if_neg hs]
      obtain ⟨i1, i2, i3⟩ := ih d df
      by_cases hu : u ≠ 0
      · simp only [if_pos hu, List.singleton_append]
        refine ⟨?_, ?_, ?_⟩
        · simp only [List.all_cons, Bool.and_eq_true]
          exact ⟨by simp [pct_le_100], i1⟩
        · intro e he
          rcases List.mem_cons.mp he with rfl | he
          · exact le_refl _
          · exact i2 e he
        · rw [List.chain'_cons']
          exact ⟨fun y hy => i2 y (List.mem_of_mem_head? hy), i3⟩
      · simp only [if_neg hu, List.nil_append]
        exact ⟨i1, i2, i3⟩

/-- A list of Nats that are all equal is non-decreasing. -/
theorem chain'_of_all_eq (l : List Nat) (h : ∀ x ∈ l, x = 100) :
    List.Chain' (· ≤ ·) l := by
  induction l with
  | nil => simp
  | cons x rest ih =>
    rw [List.chain'_cons']
    refine ⟨?_, ih (fun y hy => h y (List.mem_cons_of_mem _ hy))⟩
    intro y hy
    rw [h x (List.mem_cons_self _ _),
      h y (List.mem_cons_of_mem _ (List.mem_of_mem_head? hy))]

/-- Inside the extension, `downloaded_images` and
`unique_images_to_download` are incremented in lockstep, so every progress
event it emits equals 100. -/
theorem extImages_inv (asset : String → AssetResp) (existing : List String) :
    ∀ (urls : List String) (st : ExtState), st.d = st.u →
      (extImages asset existing st urls).d =
          (extImages asset existing st urls).u ∧
      ∃ tail, (extImages asset existing st urls).events = st.events ++ tail ∧
        ∀ x ∈ tail, x = 100 := by
  intro urls
  induction urls with
  | nil =>
    intro st hd
    refine ⟨hd, [], ?_, by simp⟩
    simp [extImages]
  | cons url rest ih =>
    intro st hd
    rw [extImages]
    by_cases hn : isNeededExt existing st.downloadedFiles (basename url) = true
    · by_cases hs : (asset url).status = 200
      · have hpct : pct (st.d + 1) (st.u + 1) = 100 := by
          rw [hd]; exact pct_self (st.u + 1) (Nat.succ_ne_zero _)
        have hstep : extImageStep asset existing st url =
            { st with
              d := st.d + 1
              u := st.u + 1
              downloadedFiles := st.downloadedFiles ++ [basename url]
              events := st.events ++ [100]
              states := st.states ++ [⟨st.d + 1, st.dup, st.total⟩] } := by
          simp only [extImageStep, if_pos hn, if_pos hs, hpct]
        rw [hstep]
        obtain ⟨j1, tail, j2, j3⟩ := ih
          { st with
            d := st.d + 1
            u := st.u + 1
            downloadedFiles := st.downloadedFiles ++ [basename url]
            events := st.events ++ [100]
            states := st.states ++ [⟨st.d + 1, st.dup, st.total⟩] }
          (by simp [hd])
        refine ⟨j1, 100 :: tail, ?_, ?_⟩
        · rw [j2]
          simp
        · intro x hx
          rcases List.mem_cons.mp hx with rfl | hx
          · rfl
          · exact j3 x hx
      · have hstep : extImageStep asset existing st url = st := by
          simp only [extImageStep, if_pos hn, if_neg hs]
        rw [hstep]
        exact ih st hd
    · have hstep : extImageStep asset existing st url =
          { st with
            dup := st.dup + 1
            states := st.states ++ [⟨st.d, st.dup + 1, st.total⟩] } := by
        simp only [extImageStep, if_neg hn]
      rw [hstep]
      exact ih _ (by simp [hd])

/-- Page-level version of `extImages_inv`: across all additional pages the
emitted events are all 100. -/
theorem extPages_inv (fetch : Nat → PageResp) (asset : String → AssetResp)
    (existing : List String) :
    ∀ (ids : List Nat) (st : ExtState), st.d = st.u →
      (extPages fetch asset existing st ids).1.d =
          (extPages fetch asset existing st ids).1.u ∧
      ∃ tail,
        (extPages fetch asset existing st ids).1.events = st.events ++ tail ∧
        ∀ x ∈ tail, x = 100 := by
  intro ids
  induction ids with
  | nil => intro st hd; exact ⟨hd, [], by simp [extPages], by simp⟩
  | cons p rest ih =>
    intro st hd
    by_cases hs : (fetch p).status = 200
    · simp only [extPages, if_pos hs]
      obtain ⟨j1, tail1, j2, j3⟩ :=
        extImages_inv asset existing (fetch p).urls st hd
      obtain ⟨k1, tail2, k2, k3⟩ := ih (extImages asset existing st (fetch p).urls) j1
      refine ⟨k1, tail1 ++ tail2, ?_, ?_⟩
      · rw [k2, j2, List.append_assoc]
      · intro x hx
        rcases List.mem_append.mp hx with hx | hx
        · exact j3 x hx
        · exact k3 x hx
    · simp only [extPages, if_neg hs]
      exact ih st hd

/-- The extension fetches exactly the precomputed number of additional
pages, whatever their statuses or contents. -/
theorem extPages_count (fetch : Nat → PageResp) (asset : String → AssetResp)
    (existing : List String) :
    ∀ (ids : List Nat) (st : ExtState),
      (extPages fetch asset existing st ids).2 = ids.length := by
  intro ids
  induction ids with
  | nil => intro st; simp [extPages]
  | cons p rest ih =>
    intro st
    by_cases hs : (fetch p).status = 200
    · simp only [extPages, if_pos hs, List.length_cons, ih]
    · simp only [extPages, if_neg hs, List.length_cons, ih]

/-- A run whose enumeration hit a non-200 listing status reports failure
and schedules nothing. -/
theorem mwRun_failed (inp : RunInput) (s : Nat)
    (h : (enumeratePages inp.fetch
      (List.range' 1 inp.pageCount)).failStatus = some s) :
    mwRun inp =
      { outcome := .failedRun s,
        pagesFetched := (enumeratePages inp.fetch
          (List.range' 1 inp.pageCount)).pagesFetched,
        total := 0, uniqueUrls := [], finalD := 0, finalDup := 0,
        finalU := 0, events := [], states := [], extensionRan := false,
        extPagesFetched := 0, downloadedFiles := [] } := by
  simp only [mwRun]
  rw [h]

/-- A run whose enumeration succeeded proceeds with the collected URLs. -/
theorem mwRun_none (inp : RunInput)
    (h : (enumeratePages inp.fetch
      (List.range' 1 inp.pageCount)).failStatus = none) :
    mwRun inp =
      mwRunOk inp
        (enumeratePages inp.fetch (List.range' 1 inp.pageCount)).urls
        (enumeratePages inp.fetch (List.range' 1 inp.pageCount)).pagesFetched
  := by
  simp only [mwRun]
  rw [h]

/-- After a successful enumeration the run always ends with the completed
signal: per-asset failures never abort it. -/
theorem mwRunOk_completed (inp : RunInput) (allUrls : List String)
    (pagesFetched : Nat) :
    (mwRunOk inp allUrls pagesFetched).outcome = .completed := by
  simp only [mwRunOk]
  split_ifs <;> rfl

/-- When the extension phase is not entered and the pool processes one
completion per scheduled URL, every observation point of the run satisfies
the counter invariant. -/
theorem mwRunOk_states (inp : RunInput) (allUrls : List String)
    (pagesFetched : Nat)
    (hext : (mwRunOk inp allUrls pagesFetched).extensionRan = false)
    (hlen : inp.completionOrder.length =
      (mwRunOk inp allUrls pagesFetched).uniqueUrls.length) :
    (mwRunOk inp allUrls pagesFetched).states.all obsOk = true := by
  by_cases hu : (dedupPhase (existingFiles inp.dirListing) [] allUrls.length
      allUrls 0).uniqueUrls.length = 0
  · by_cases ht : allUrls.length < imagesPerPage * inp.pageCount
    · exfalso
      simp only [mwRunOk, if_pos hu, if_pos ht] at hext
      simp at hext
    · simp only [mwRunOk, if_pos hu, if_neg ht]
      exact dedupPhase_states _ _ _ allUrls 0 (by omega)
  · simp only [mwRunOk, if_neg hu] at hlen ⊢
    have hcount := dedupPhase_count (existingFiles inp.dirListing) []
      allUrls.length allUrls 0
    rw [List.all_append, Bool.and_eq_true]
    constructor
    · exact dedupPhase_states _ _ _ allUrls 0 (by omega)
    · exact poolPhase_states inp.asset _ _ _ (by omega)
        inp.completionOrder 0 [] (by omega)

/-- Every progress event of a successfully enumerated run is at most 100,
and the event sequence is non-decreasing. -/
theorem mwRunOk_events (inp : RunInput) (allUrls : List String)
    (pagesFetched : Nat) :
    (mwRunOk inp allUrls pagesFetched).events.all
        (fun e => decide (e ≤ 100)) = true ∧
    List.Chain' (· ≤ ·) (mwRunOk inp allUrls pagesFetched).events := by
  by_cases hu : (dedupPhase (existingFiles inp.dirListing) [] allUrls.length
      allUrls 0).uniqueUrls.length = 0
  · by_cases ht : allUrls.length < imagesPerPage * inp.pageCount
    · simp only [mwRunOk, if_pos hu, if_pos ht]
      obtain ⟨hdu, tail, hev, h100⟩ :=
        extPages_inv inp.fetch inp.asset (existingFiles inp.dirListing)
          (extraPageIds inp.pageCount allUrls.length)
          { d := 0, u := 0,
            dup := (dedupPhase (existingFiles inp.dirListing) []
              allUrls.length allUrls 0).duplicates,
            total := allUrls.length, downloadedFiles := [], events := [],
            states := [] }
          rfl
      rw [hev]
      simp only [List.nil_append]
      constructor
      · rw [List.all_eq_true]
        intro x hx
        rw [h100 x hx]
        rfl
      · exact chain'_of_all_eq tail h100
    · simp only [mwRunOk, if_pos hu, if_neg ht]
      simp
  · simp only [mwRunOk, if_neg hu]
    obtain ⟨p1, p2, p3⟩ := poolPhase_events inp.asset
      (dedupPhase (existingFiles inp.dirListing) [] allUrls.length
        allUrls 0).uniqueUrls.length
      (dedupPhase (existingFiles inp.dirListing) [] allUrls.length
        allUrls 0).duplicates
      allUrls.length inp.completionOrder 0 []
    exact ⟨p1, p3⟩

/-- The extension phase runs exactly when every enumerated descriptor was
deduplicated and the total falls short of `64 · page_count`. -/
theorem mwRunOk_extension_iff (inp : RunInput) (allUrls : List String)
    (pagesFetched : Nat) :
    (mwRunOk inp allUrls pagesFetched).extensionRan = true ↔
      ((mwRunOk inp allUrls pagesFetched).uniqueUrls.length = 0 ∧
        (mwRunOk inp allUrls pagesFetched).total <
          imagesPerPage * inp.pageCount) := by
  by_cases hu : (dedupPhase (existingFiles inp.dirListing) [] allUrls.length
      allUrls 0).uniqueUrls.length = 0
  · by_cases ht : allUrls.length < imagesPerPage * inp.pageCount
    · simp only [mwRunOk, if_pos hu, if_pos ht]
      simp [ht]
    · simp only [mwRunOk, if_pos hu, if_neg ht]
      simp [ht]
  · simp only [mwRunOk, if_neg hu]
    simp [hu]

/-- When the extension runs it fetches the precomputed
`⌈(64·page_count − total) / 64⌉` additional pages, no matter what they
contain. -/
theorem mwRunOk_ext_pages (inp : RunInput) (allUrls : List String)
    (pagesFetched : Nat)
    (hE : (mwRunOk inp allUrls pagesFetched).extensionRan = true) :
    (mwRunOk inp allUrls pagesFetched).extPagesFetched =
      (imagesPerPage * inp.pageCount -
        (mwRunOk inp allUrls pagesFetched).total + imagesPerPage - 1) /
        imagesPerPage := by
  by_cases hu : (dedupPhase (existingFiles inp.dirListing) [] allUrls.length
      allUrls 0).uniqueUrls.length = 0
  · by_cases ht : allUrls.length < imagesPerPage * inp.pageCount
    · simp only [mwRunOk, if_pos hu, if_pos ht]
      rw [extPages_count]
      simp [extraPageIds]
    · simp only [mwRunOk, if_pos hu, if_neg ht] at hE
      simp at hE
  · simp only [mwRunOk, if_neg hu] at hE
    simp at hE

/-- One image step of the full model agrees with the exception-free
model whenever the inline asset GET answers with a response. -/
theorem extImageStepX_agrees (extAsset : String → ExtAsset)
    (asset : String → AssetResp) (existing : List String)
    (ha : ∀ u, extAsset u = ExtAsset.resp (asset u).status)
    (st : ExtState) (url : String) :
    extImageStepX extAsset existing (st, false) url =
      (extImageStep asset existing st url, false) := by
  simp only [extImageStepX, extImageStep, ha url]
  by_cases hn : isNeededExt existing st.downloadedFiles (basename url) = true
  · by_cases hs : (asset url).status = 200
    · simp only [if_pos hn, if_pos hs]
      rfl
    · simp only [if_pos hn, if_neg hs]
      rfl
  · simp only [if_neg hn]
    rfl

/-- One additional page's images in the full model agree with the
exception-free model under a response-only asset oracle. -/
theorem extImagesX_agrees (extAsset : String → ExtAsset)
    (asset : String → AssetResp) (existing : List String)
    (ha : ∀ u, extAsset u = ExtAsset.resp (asset u).status) :
    ∀ (urls : List String) (st : ExtState),
      extImagesX extAsset existing (st, false) urls =
        (extImages asset existing st urls, false) := by
  intro urls
  induction urls with
  | nil => intro st; rfl
  | cons url rest ih =>
    intro st
    rw [extImagesX, extImages,
      extImageStepX_agrees extAsset asset existing ha st url]
    exact ih _

/-- The additional-pages loop of the full model agrees with the
exception-free model (state, exception flag clear, and listing-GET count)
under response-only extension oracles. -/
theorem extPagesX_agrees (extListing : Nat → ExtListing)
    (fetch : Nat → PageResp) (extAsset : String → ExtAsset)
    (asset : String → AssetResp) (existing : List String)
    (hl : ∀ p, extListing p =
      ExtListing.resp (fetch p).status (fetch p).urls)
    (ha : ∀ u, extAsset u = ExtAsset.resp (asset u).status) :
    ∀ (ids : List Nat) (st : ExtState),
      extPagesX extListing extAsset existing (st, false) ids =
        (((extPages fetch asset existing st ids).1, false),
          (extPages fetch asset existing st ids).2) := by
  intro ids
  induction ids with
  | nil => intro st; rfl
  | cons p rest ih =>
    intro st
    rw [extPagesX, extPages]
    simp only [hl p, Bool.false_eq_true, if_false]
    by_cases hs : (fetch p).status = 200
    · simp only [if_pos hs]
      rw [extImagesX_agrees extAsset asset existing ha (fetch p).urls st,
        ih (extImages asset existing st (fetch p).urls)]
    · simp only [if_neg hs]
      rw [ih st]

/-- The post-enumeration body of the full model agrees with the
exception-free model under response-only extension oracles that answer
like the shared listing/asset oracles — i.e. `mwRunOk` is exactly the
quotient of `mwRunOkX` to exception-free executions. -/
theorem mwRunOkX_agrees (inp : RunInputX) (allUrls : List String)
    (pagesFetched : Nat)
    (hl : ∀ p, inp.extListing p =
      ExtListing.resp (inp.fetch p).status (inp.fetch p).urls)
    (ha : ∀ u, inp.extAsset u = ExtAsset.resp (inp.asset u).status) :
    mwRunOkX inp allUrls pagesFetched =
      mwRunOk inp.forget allUrls pagesFetched := by
  simp only [mwRunOkX, mwRunOk, RunInputX.forget,
    extPagesX_agrees inp.extListing inp.fetch inp.extAsset inp.asset
      (existingFiles inp.dirListing) hl ha]
  split_ifs with hu ht hx
  · simp at hx
  · rfl
  · rfl
  · rfl

/-- `run` in the full model agrees with the exception-free model under
response-only extension oracles. -/
theorem mwRunX_agrees (inp : RunInputX)
    (hl : ∀ p, inp.extListing p =
      ExtListing.resp (inp.fetch p).status (inp.fetch p).urls)
    (ha : ∀ u, inp.extAsset u = ExtAsset.resp (inp.asset u).status) :
    mwRunX inp = mwRun inp.forget := by
  simp only [mwRunX, mwRun, RunInputX.forget]
  cases (enumeratePages inp.fetch (List.range' 1 inp.pageCount)).failStatus
    with
  | some s => rfl
  | none =>
    exact mwRunOkX_agrees inp _ _ hl ha

/-- A full-model run whose enumeration hit a non-200 listing status
reports failure and schedules nothing. -/
theorem mwRunX_failed (inp : RunInputX) (s : Nat)
    (h : (enumeratePages inp.fetch
      (List.range' 1 inp.pageCount)).failStatus = some s) :
    mwRunX inp =
      { outcome := .failedRun s,
        pagesFetched := (enumeratePages inp.fetch
          (List.range' 1 inp.pageCount)).pagesFetched,
        total := 0, uniqueUrls := [], finalD := 0, finalDup := 0,
        finalU := 0, events := [], states := [], extensionRan := false,
        extPagesFetched := 0, downloadedFiles := [] } := by
  simp only [mwRunX]
  rw [h]

/-- A full-model run whose enumeration succeeded proceeds with the
collected URLs. -/
theorem mwRunX_none (inp : RunInputX)
    (h : (enumeratePages inp.fetch
      (List.range' 1 inp.pageCount)).failStatus = none) :
    mwRunX inp =
      mwRunOkX inp
        (enumeratePages inp.fetch (List.range' 1 inp.pageCount)).urls
        (enumeratePages inp.fetch (List.range' 1 inp.pageCount)).pagesFetched
  := by
  simp only [mwRunX]
  rw [h]

/-- A full-model run that does not enter the extension ends completed:
the only exception sources modelled are the extension's two unprotected
GETs. -/
theorem mwRunOkX_completed_nonext (inp : RunInputX) (allUrls : List String)
    (pagesFetched : Nat)
    (hext : (mwRunOkX inp allUrls pagesFetched).extensionRan = false) :
    (mwRunOkX inp allUrls pagesFetched).outcome = RunOutcome.completed := by
  by_cases hu : (dedupPhase (existingFiles inp.dirListing) [] allUrls.length
      allUrls 0).uniqueUrls.length = 0
  · by_cases ht : allUrls.length < imagesPerPage * inp.pageCount
    · exfalso
      simp only [mwRunOkX, if_pos hu, if_pos ht] at hext
      simp at hext
    · simp only [mwRunOkX, if_pos hu, if_neg ht]
  · simp only [mwRunOkX, if_neg hu]

/-- When neither extension GET ever raises, the full-model run ends
completed whatever the statuses returned. -/
theorem mwRunOkX_completed_noexc (inp : RunInputX) (allUrls : List String)
    (pagesFetched : Nat)
    (hl : ∀ p, inp.extListing p ≠ ExtListing.raisesExc)
    (ha : ∀ u, inp.extAsset u ≠ ExtAsset.raisesExc) :
    (mwRunOkX inp allUrls pagesFetched).outcome = RunOutcome.completed := by
  have hl2 : ∀ p, inp.extListing p =
      ExtListing.resp ((inp.extListing p).toResp).status
        ((inp.extListing p).toResp).urls := by
    intro p
    cases h : inp.extListing p with
    | resp s us => rfl
    | raisesExc => exact absurd h (hl p)
  have ha2 : ∀ u, inp.extAsset u =
      ExtAsset.resp ((inp.extAsset u).toResp).status := by
    intro u
    cases h : inp.extAsset u with
    | resp s => rfl
    | raisesExc => exact absurd h (ha u)
  by_cases hu : (dedupPhase (existingFiles inp.dirListing) [] allUrls.length
      allUrls 0).uniqueUrls.length = 0
  · by_cases ht : allUrls.length < imagesPerPage * inp.pageCount
    · simp only [mwRunOkX, if_pos hu, if_pos ht]
      rw [extPagesX_agrees inp.extListing
        (fun p => (inp.extListing p).toResp) inp.extAsset
        (fun u => (inp.extAsset u).toResp)
        (existingFiles inp.dirListing) hl2 ha2]
      rfl
    · simp only [mwRunOkX, if_pos hu, if_neg ht]
  · simp only [mwRunOkX, if_neg hu]

end MW

/-- Claim C2 (confirmed): a transfer whose asset GET answers 403 or 404 —
possibly after earlier transient attempts — returns the permanent-failure
result on that very attempt: no further attempt is issued, no backoff
sleep follows the 403/404 response, and `download_page` counts the
outcome in `skipped_count`, never in `failed_count`. -/
theorem claim_C2 (maxRetries k : Nat) (oracle : Nat → TestPy.AttemptOutcome)
    (c : TestPy.Counters) (j : TestPy.ImageJob)
    (hk : k < maxRetries)
    (htrans : ∀ i, i < k → TestPy.isTransientOutcome (oracle i) = true)
    (hperm : TestPy.isPermOutcome (oracle k) = true)
    (hdisk : j.existsOnDisk = false)
    (hor : j.oracle = oracle) :
    (TestPy.downloadImageWithRetry maxRetries oracle).success = false ∧
    (TestPy.downloadImageWithRetry maxRetries oracle).msg =
      TestPy.DlMsg.permDenied ∧
    (TestPy.downloadImageWithRetry maxRetries oracle).attempts = k + 1 ∧
    (TestPy.downloadImageWithRetry maxRetries oracle).sleeps =
      (List.range k).map (fun i => 2 ^ i) ∧
    TestPy.processJobs maxRetries c [j] =
      ({ c with skipped := c.skipped + 1 }, true) := by
  have h := TestPy.retryLoop_perm oracle k maxRetries 0 .absent [] hk
    (fun i hi => by rw [Nat.zero_add]; exact htrans i hi)
    (by rw [Nat.zero_add]; exact hperm)
  have hsucc : (TestPy.downloadImageWithRetry maxRetries oracle).success =
      false := by
    show (TestPy.retryLoop oracle 0 maxRetries .absent []).success = false
    rw [h]
  have hmsg : (TestPy.downloadImageWithRetry maxRetries oracle).msg =
      TestPy.DlMsg.permDenied := by
    show (TestPy.retryLoop oracle 0 maxRetries .absent []).msg = _
    rw [h]
  have hatt : (TestPy.downloadImageWithRetry maxRetries oracle).attempts =
      k + 1 := by
    show (TestPy.retryLoop oracle 0 maxRetries .absent []).attempts = k + 1
    rw [h]
    simp
  have hsl : (TestPy.downloadImageWithRetry maxRetries oracle).sleeps =
      (List.range k).map (fun i => 2 ^ i) := by
    show (TestPy.retryLoop oracle 0 maxRetries .absent []).sleeps = _
    rw [h]
    simp
  refine ⟨hsucc, hmsg, hatt, hsl, ?_⟩
  have hni : ¬(TestPy.downloadImageWithRetry maxRetries j.oracle).msg =
      TestPy.DlMsg.interrupted := by
    rw [hor, hmsg]; simp
  have hns : ¬(TestPy.downloadImageWithRetry maxRetries j.oracle).success =
      true := by
    rw [hor, hsucc]; simp
  have hp2 : (TestPy.downloadImageWithRetry maxRetries j.oracle).msg =
      TestPy.DlMsg.permDenied := by
    rw [hor]; exact hmsg
  simp only [TestPy.processJobs]
  rw [if_neg (by simp [hdisk]), if_neg hni, if_neg hns, if_pos hp2]

/-- Witness for C2 at a concrete input: a first-attempt 404 is returned at
once with no sleep and lands in the skipped counter. -/
theorem claim_C2_witness :
    (TestPy.downloadImageWithRetry 3 (fun _ => .resp 404 false)).success =
      false ∧
    (TestPy.downloadImageWithRetry 3 (fun _ => .resp 404 false)).msg =
      TestPy.DlMsg.permDenied ∧
    (TestPy.downloadImageWithRetry 3 (fun _ => .resp 404 false)).attempts =
      1 ∧
    (TestPy.downloadImageWithRetry 3 (fun _ => .resp 404 false)).sleeps =
      [] ∧
    TestPy.processJobs 3 ⟨0, 0, 0⟩
        [⟨"wallhaven-a.jpg", false, fun _ => .resp 404 false⟩] =
      (⟨0, 0, 1⟩, true) :=
  claim_C2 3 0 (fun _ => .resp 404 false) ⟨0, 0, 0⟩
    ⟨"wallhaven-a.jpg", false, fun _ => .resp 404 false⟩
    (by decide) (fun i hi => absurd hi (Nat.not_lt_zero i)) (by decide)
    rfl rfl

/-- Claim C3 (confirmed): a transfer makes at most `max_retries` attempts
in total (the bound counts the initial attempt); when every attempt is
transient it makes exactly `max_retries` attempts, sleeping
`2^attempt_count` time units after each non-final attempt, and
`download_page` counts the outcome in `failed_count` — so with
`max_retries = 3`, status 500 on three consecutive attempts is recorded as
failed and no fourth attempt is issued. -/
theorem claim_C3 :
    (∀ (maxRetries : Nat) (oracle : Nat → TestPy.AttemptOutcome),
      (TestPy.downloadImageWithRetry maxRetries oracle).attempts ≤
        maxRetries) ∧
    (∀ (maxRetries : Nat) (oracle : Nat → TestPy.AttemptOutcome)
        (c : TestPy.Counters) (j : TestPy.ImageJob),
      maxRetries ≠ 0 →
      (∀ i, i < maxRetries → TestPy.isTransientOutcome (oracle i) = true) →
      j.existsOnDisk = false → j.oracle = oracle →
      (TestPy.downloadImageWithRetry maxRetries oracle).success = false ∧
      (TestPy.downloadImageWithRetry maxRetries oracle).attempts =
        maxRetries ∧
      (TestPy.downloadImageWithRetry maxRetries oracle).sleeps =
        (List.range (maxRetries - 1)).map (fun i => 2 ^ i) ∧
      TestPy.processJobs maxRetries c [j] =
        ({ c with failed := c.failed + 1 }, true)) := by
  constructor
  · intro maxRetries oracle
    show (TestPy.retryLoop oracle 0 maxRetries .absent []).attempts ≤
      maxRetries
    have := TestPy.retryLoop_attempts_le oracle maxRetries 0 .absent []
    omega
  · intro maxRetries oracle c j h0 htrans hdisk hor
    obtain ⟨s1, s2, s3, s4, s5⟩ :=
      TestPy.retryLoop_transient oracle maxRetries 0 .absent [] h0
        (fun i hi => by rw [Nat.zero_add]; exact htrans i hi)
    have hsucc : (TestPy.downloadImageWithRetry maxRetries oracle).success =
        false := s1
    have hni : (TestPy.downloadImageWithRetry maxRetries oracle).msg ≠
        TestPy.DlMsg.interrupted := s2
    have hnp : (TestPy.downloadImageWithRetry maxRetries oracle).msg ≠
        TestPy.DlMsg.permDenied := s3
    have hatt : (TestPy.downloadImageWithRetry maxRetries oracle).attempts =
        maxRetries := by
      have h4 : (TestPy.downloadImageWithRetry maxRetries oracle).attempts =
          0 + maxRetries := s4
      omega
    have hsl : (TestPy.downloadImageWithRetry maxRetries oracle).sleeps =
        (List.range (maxRetries - 1)).map (fun i => 2 ^ i) := by
      have h5 := s5
      rw [show (TestPy.retryLoop oracle 0 maxRetries .absent []).sleeps =
        (TestPy.downloadImageWithRetry maxRetries oracle).sleeps from rfl]
        at h5
      rw [h5]
      simp
    refine ⟨hsucc, hatt, hsl, ?_⟩
    have hni' : ¬(TestPy.downloadImageWithRetry maxRetries j.oracle).msg =
        TestPy.DlMsg.interrupted := by rw [hor]; exact hni
    have hns : ¬(TestPy.downloadImageWithRetry maxRetries j.oracle).success =
        true := by rw [hor, hsucc]; simp
    have hnp' : ¬(TestPy.downloadImageWithRetry maxRetries j.oracle).msg =
        TestPy.DlMsg.permDenied := by rw [hor]; exact hnp
    simp only [TestPy.processJobs]
    rw [if_neg (by simp [hdisk]), if_neg hni', if_neg hns, if_neg hnp']

/-- Witness for C3 at the pinned input: status 500 on every attempt with
`max_retries = 3` gives exactly 3 attempts, backoff sleeps of 1 and 2 time
units, and one increment of the failed counter. -/
theorem claim_C3_witness :
    (TestPy.downloadImageWithRetry 3 (fun _ => .resp 500 false)).success =
      false ∧
    (TestPy.downloadImageWithRetry 3 (fun _ => .resp 500 false)).attempts =
      3 ∧
    (TestPy.downloadImageWithRetry 3 (fun _ => .resp 500 false)).sleeps =
      [1, 2] ∧
    TestPy.processJobs 3 ⟨0, 0, 0⟩
        [⟨"wallhaven-c.jpg", false, fun _ => .resp 500 false⟩] =
      (⟨0, 1, 0⟩, true) :=
  claim_C3.2 3 (fun _ => .resp 500 false) ⟨0, 0, 0⟩
    ⟨"wallhaven-c.jpg", false, fun _ => .resp 500 false⟩
    (by decide) (by decide) rfl rfl

/-- Counterexample to C4 as stated: when cancellation is observed while
streaming body chunks, the transfer ends in the Cancelled outcome
(`success = False`, message "下载被中断"), `download_page` breaks out of
the loop before its cleanup branch, and the partially written destination
file remains on disk. -/
theorem claim_C4_counterexample :
    (TestPy.downloadImageWithRetry 3 (fun _ => .resp 200 true)).success =
      false ∧
    (TestPy.downloadImageWithRetry 3 (fun _ => .resp 200 true)).msg =
      TestPy.DlMsg.interrupted ∧
    TestPy.fileAfterHandling
        (TestPy.downloadImageWithRetry 3 (fun _ => .resp 200 true)) =
      TestPy.FileState.incomplete := by
  decide

/-- Claim C4 (amended): for every transfer that ends in a non-Success
outcome other than the Cancelled one — i.e. TransientFailure or
PermanentFailure — no partially written destination file remains after
`download_page` handles the outcome (`os.remove` modelled as succeeding);
on the Cancelled outcome the loop breaks before the cleanup and the file
is left exactly as the transfer left it. -/
theorem claim_C4 (maxRetries : Nat) (oracle : Nat → TestPy.AttemptOutcome)
    (hfail : (TestPy.downloadImageWithRetry maxRetries oracle).success =
      false)
    (hni : (TestPy.downloadImageWithRetry maxRetries oracle).msg ≠
      TestPy.DlMsg.interrupted) :
    TestPy.fileAfterHandling
        (TestPy.downloadImageWithRetry maxRetries oracle) =
      TestPy.FileState.absent := by
  unfold TestPy.fileAfterHandling
  rw [if_neg hni, if_neg (by simp [hfail])]

/-- Witness for C4 at a concrete input: a permanent 404 failure leaves no
file on disk after handling. -/
theorem claim_C4_witness :
    TestPy.fileAfterHandling
        (TestPy.downloadImageWithRetry 3 (fun _ => .resp 404 false)) =
      TestPy.FileState.absent :=
  claim_C4 3 (fun _ => .resp 404 false) (by decide) (by decide)

/-- Claim C5 (code bug): `WallpaperDownloadThread.stop` builds the
resume-state dict with `processed_urls` and `downloaded_files` as Python
`set` objects, and `json.dump` cannot serialize a set — it raises
`TypeError`, the surrounding `except` swallows it, and no sidecar file is
ever written.  So stopping a run persists nothing, for every possible
state of the thread. -/
theorem claim_C5 (currentPage pageCount totalImages downloadedImages
      duplicateImages uniqueImages concurrentDownloads : Nat)
    (processedUrls downloadedFiles : List String)
    (baseUrl downloadDir : String) :
    PyJson.stopSaveSucceeds
        (PyJson.stopResumeState currentPage processedUrls downloadedFiles
          baseUrl pageCount downloadDir totalImages downloadedImages
          duplicateImages uniqueImages concurrentDownloads) = false := rfl

/-- Counterexample to C1 as stated: in the pooled variant a run can finish
without cancellation with a scheduled descriptor whose transfer failed
(HTTP 500) while no counter of the run records the outcome —
`downloaded_images` and `duplicate_images` both stay 0 although one
descriptor was scheduled, so the job's outcome is silently dropped and no
sum of counters can equal the number of scheduled descriptors. -/
theorem claim_C1_counterexample :
    (MW.mwRun mwOneFailInput).outcome = MW.RunOutcome.completed ∧
    (MW.mwRun mwOneFailInput).finalU = 1 ∧
    (MW.mwRun mwOneFailInput).finalD = 0 ∧
    (MW.mwRun mwOneFailInput).finalDup = 0 := by
  decide

/-- Claim C1 (amended): in the sequential worker, a run that observes no
cancellation completes and each enumerated descriptor increments exactly
one of success/failed/skipped, so their sum equals the number of
descriptors enumerated on successfully fetched pages; in the pooled
variant only successful transfers increment `downloaded_images`
(failed transfers increment no counter at all). -/
theorem claim_C1 :
    (∀ (maxRetries : Nat) (c : TestPy.Counters) (pages : List TestPy.TPage),
      (∀ p ∈ pages, ∀ j ∈ p.images, ∀ i,
        TestPy.isCancelOutcome (j.oracle i) = false) →
      (TestPy.runPages maxRetries c pages).2.2 = true ∧
      (TestPy.runPages maxRetries c pages).1.success +
          (TestPy.runPages maxRetries c pages).1.failed +
          (TestPy.runPages maxRetries c pages).1.skipped =
        c.success + c.failed + c.skipped + TestPy.enumeratedImages pages) ∧
    (∀ (asset : String → MW.AssetResp) (u dup total d : Nat)
        (downloadedFiles order : List String),
      (MW.poolPhase asset u dup total d downloadedFiles order).downloaded =
        d + MW.okCount asset order) := by
  constructor
  · intro maxRetries c pages h
    obtain ⟨r1, _, r3⟩ := TestPy.runPages_complete maxRetries pages c h
    exact ⟨r1, r3⟩
  · intro asset u dup total d downloadedFiles order
    exact MW.poolPhase_downloaded asset u dup total order d downloadedFiles

/-- Witness for C1 at a concrete input: one fresh descriptor downloads and
one pre-existing descriptor is skipped, and the counters' sum is 2. -/
theorem claim_C1_witness :
    (TestPy.runPages 3 ⟨0, 0, 0⟩ tpTwoJobPages).2.2 = true ∧
    (TestPy.runPages 3 ⟨0, 0, 0⟩ tpTwoJobPages).1.success +
        (TestPy.runPages 3 ⟨0, 0, 0⟩ tpTwoJobPages).1.failed +
        (TestPy.runPages 3 ⟨0, 0, 0⟩ tpTwoJobPages).1.skipped = 2 :=
  claim_C1.1 3 ⟨0, 0, 0⟩ tpTwoJobPages
    (by intro p hp j hj i; fin_cases hp; fin_cases hj <;> rfl)

/-- Counterexample to C6 as stated: in the sequential worker a listing
fetch that answers HTTP 500 on page 1 does not abort page enumeration —
page 2 is still fetched (two listing fetches) and its image downloaded
(success count 1), although the claim says no further pages are
fetched after a failed listing. -/
theorem claim_C6_counterexample :
    TestPy.runPages 3 ⟨0, 0, 0⟩ tpFailThenOkPages = (⟨1, 0, 0⟩, 2, true) := by
  decide

/-- Claim C6 (amended): in the pooled variant a non-200 listing status
during the initial enumeration aborts enumeration on that page (no later
page is fetched), reports the terminal failed event and schedules no
transfer.  Individual asset failures within the scheduled transfers never
abort the run: with every initial listing fetch succeeding, the run ends
with the completed event whenever the extension phase is skipped, and
also whenever the extension's two unprotected inline GETs (`main_window.py`
lines 199 and 219, no `try`, no timeout) return responses, whatever their
statuses; but an exception raised by either of those GETs propagates to
`run`'s outer `except` (lines 319-320), which ends the run with the
terminal failed event instead — concretely, one raising extension asset
GET turns the outcome into `failedExc` after a single additional-page
listing fetch.  In the sequential worker (test.py), by contrast, a failed
listing page only emits an error event and enumeration continues (see the
counterexample). -/
theorem claim_C6 :
    (∀ (inp : MW.RunInputX) (p : Nat),
      1 ≤ p → p ≤ inp.pageCount →
      (∀ q, 1 ≤ q → q < p → (inp.fetch q).status = 200) →
      (inp.fetch p).status ≠ 200 →
      (MW.mwRunX inp).outcome =
        MW.RunOutcome.failedRun (inp.fetch p).status ∧
      (MW.mwRunX inp).pagesFetched = p ∧
      (MW.mwRunX inp).uniqueUrls = [] ∧
      (MW.mwRunX inp).finalD = 0 ∧
      (MW.mwRunX inp).events = []) ∧
    (∀ inp : MW.RunInputX,
      (∀ q, 1 ≤ q → q ≤ inp.pageCount → (inp.fetch q).status = 200) →
      (MW.mwRunX inp).extensionRan = false →
      (MW.mwRunX inp).outcome = MW.RunOutcome.completed) ∧
    (∀ inp : MW.RunInputX,
      (∀ q, 1 ≤ q → q ≤ inp.pageCount → (inp.fetch q).status = 200) →
      (∀ p, inp.extListing p ≠ MW.ExtListing.raisesExc) →
      (∀ u, inp.extAsset u ≠ MW.ExtAsset.raisesExc) →
      (MW.mwRunX inp).outcome = MW.RunOutcome.completed) ∧
    ((MW.mwRunX mwxExtExcInput).outcome = MW.RunOutcome.failedExc ∧
      (MW.mwRunX mwxExtExcInput).extensionRan = true ∧
      (MW.mwRunX mwxExtExcInput).extPagesFetched = 1) := by
  refine ⟨?_, ?_, ?_, ?_⟩
  · intro inp p hp1 hp2 hpre hp
    have hsplit : List.range' 1 inp.pageCount =
        List.range' 1 (p - 1) ++
          p :: List.range' (p + 1) (inp.pageCount - p) := by
      have h1 := List.range'_append_1 1 (p - 1) (inp.pageCount - (p - 1))
      have e1 : 1 + (p - 1) = p := by omega
      have e2 : inp.pageCount - (p - 1) + (p - 1) = inp.pageCount := by omega
      have e3 : inp.pageCount - (p - 1) = (inp.pageCount - p) + 1 := by omega
      rw [e1, e2, e3, List.range'_succ] at h1
      exact h1.symm
    have hpre' : ∀ q ∈ List.range' 1 (p - 1), (inp.fetch q).status = 200 := by
      intro q hq
      rw [List.mem_range'_1] at hq
      exact hpre q hq.1 (by omega)
    obtain ⟨e1, e2⟩ := MW.enumeratePages_fail inp.fetch
      (List.range' 1 (p - 1)) p (List.range' (p + 1) (inp.pageCount - p))
      hpre' hp
    rw [← hsplit] at e1 e2
    rw [MW.mwRunX_failed inp (inp.fetch p).status e2]
    refine ⟨rfl, ?_, rfl, rfl, rfl⟩
    show (MW.enumeratePages inp.fetch
      (List.range' 1 inp.pageCount)).pagesFetched = p
    rw [e1]
    have hlr : (List.range' 1 (p - 1)).length = p - 1 := by
      simp [List.length_range']
    omega
  · intro inp hall hext
    have hok := MW.enumeratePages_ok inp.fetch (List.range' 1 inp.pageCount)
      (by intro q hq; rw [List.mem_range'_1] at hq
          exact hall q hq.1 (by omega))
    have hnone : (MW.enumeratePages inp.fetch
        (List.range' 1 inp.pageCount)).failStatus = none := by
      rw [hok]
    rw [MW.mwRunX_none inp hnone] at hext ⊢
    exact MW.mwRunOkX_completed_nonext inp _ _ hext
  · intro inp hall hl ha
    have hok := MW.enumeratePages_ok inp.fetch (List.range' 1 inp.pageCount)
      (by intro q hq; rw [List.mem_range'_1] at hq
          exact hall q hq.1 (by omega))
    have hnone : (MW.enumeratePages inp.fetch
        (List.range' 1 inp.pageCount)).failStatus = none := by
      rw [hok]
    rw [MW.mwRunX_none inp hnone]
    exact MW.mwRunOkX_completed_noexc inp _ _ hl ha
  · exact ⟨by decide, by decide, by decide⟩

/-- Witness for C6 at a concrete input: page 2 answers HTTP 500 after a
successful page 1, the run fails having fetched exactly two pages and
scheduled nothing. -/
theorem claim_C6_witness :
    (MW.mwRunX mwxPage2FailInput).outcome = MW.RunOutcome.failedRun 500 ∧
    (MW.mwRunX mwxPage2FailInput).pagesFetched = 2 ∧
    (MW.mwRunX mwxPage2FailInput).uniqueUrls = [] ∧
    (MW.mwRunX mwxPage2FailInput).finalD = 0 ∧
    (MW.mwRunX mwxPage2FailInput).events = [] :=
  claim_C6.1 mwxPage2FailInput 2 (by decide) (by decide)
    (fun q h1 h2 => by
      have hq : q = 1 := by omega
      subst hq
      rfl)
    (by decide)

/-- Counterexample to C7 as stated: a run that enters the additional-pages
extension violates the invariant — after one duplicate (state
`⟨0, 1, 1⟩`) the extension downloads a new image without updating
`total_images`, reaching the observation point `⟨1, 1, 1⟩` where
`downloaded_images + duplicate_images = 2 > 1 = total_images`. -/
theorem claim_C7_counterexample :
    (MW.mwRun mwExtensionInput).states = [⟨0, 1, 1⟩, ⟨1, 1, 1⟩] ∧
    (MW.mwRun mwExtensionInput).states.all MW.obsOk = false := by
  decide

/-- Claim C7 (amended): in every run that does not enter the
additional-pages extension (and whose pool processes one completion per
scheduled URL), every observation point satisfies
`downloaded_images + duplicate_images ≤ total_images`; the extension's
counter updates do not preserve the invariant (see the counterexample). -/
theorem claim_C7 (inp : MW.RunInput)
    (hext : (MW.mwRun inp).extensionRan = false)
    (hlen : inp.completionOrder.length = (MW.mwRun inp).uniqueUrls.length) :
    (MW.mwRun inp).states.all MW.obsOk = true := by
  rcases hfs : (MW.enumeratePages inp.fetch
      (List.range' 1 inp.pageCount)).failStatus with _ | s
  · rw [MW.mwRun_none inp hfs] at hext hlen ⊢
    exact MW.mwRunOk_states inp _ _ hext hlen
  · rw [MW.mwRun_failed inp s hfs]
    rfl

/-- Witness for C7 at a concrete input: a pooled run with one scheduled
and successfully downloaded image satisfies the invariant at every
observation point. -/
theorem claim_C7_witness :
    (MW.mwRun mwOneOkInput).states.all MW.obsOk = true :=
  claim_C7 mwOneOkInput (by decide) (by decide)

/-- Claim C8 (confirmed): every progress event of a run carries a percent
value of at most 100 (it is `min(100, ⌊100·completed/unique_total⌋)`, and
percent values are naturals, hence at least 0), and the emitted sequence
is non-decreasing. -/
theorem claim_C8 (inp : MW.RunInput) :
    (MW.mwRun inp).events.all (fun e => decide (e ≤ 100)) = true ∧
    List.Chain' (· ≤ ·) (MW.mwRun inp).events := by
  rcases hfs : (MW.enumeratePages inp.fetch
      (List.range' 1 inp.pageCount)).failStatus with _ | s
  · rw [MW.mwRun_none inp hfs]
    exact MW.mwRunOk_events inp _ _
  · rw [MW.mwRun_failed inp s hfs]
    exact ⟨rfl, List.chain'_nil⟩

/-- Counterexample to C9 as stated: the extension does not reuse the
pooled transfer path.  Feeding the same two fresh, successfully
downloading URLs through both paths gives different behavior: the
extension increments `unique_images_to_download` alongside
`downloaded_images`, so its progress events are `[100, 100]`, while the
pooled path (with those two URLs scheduled) emits `[50, 100]`. -/
theorem claim_C9_counterexample :
    (MW.extImages (fun _ => ⟨200⟩) [] ⟨0, 0, 0, 0, [], [], []⟩
      twoFreshUrls).events = [100, 100] ∧
    (MW.poolPhase (fun _ => ⟨200⟩) 2 0 0 0 [] twoFreshUrls).events =
      [50, 100] ∧
    ([100, 100] : List Nat) ≠ [50, 100] := by
  decide

/-- Claim C9 (amended): when every listing fetch succeeds, the engine
enters the additional-pages extension exactly when every descriptor was
filtered out as a duplicate and the total falls short of
`64 × page_count`; the extension fetches the precomputed
`⌈(64·page_count − total)/64⌉` additional pages (whatever they contain,
rather than until the target is reached or the listing exhausted); it
applies the same dedup membership test as the ordinary path, but not the
same transfer path: it downloads inline, and its success handling
increments `unique_images_to_download` together with `downloaded_images`
while leaving `total_images` unchanged. -/
theorem claim_C9 :
    (∀ inp : MW.RunInput,
      (∀ q, 1 ≤ q → q ≤ inp.pageCount → (inp.fetch q).status = 200) →
      ((MW.mwRun inp).extensionRan = true ↔
        ((MW.mwRun inp).uniqueUrls.length = 0 ∧
          (MW.mwRun inp).total < MW.imagesPerPage * inp.pageCount))) ∧
    (∀ (existing downloadedFiles : List String) (fname : String),
      MW.isNeededExt existing downloadedFiles fname =
        MW.isNeededDedup existing downloadedFiles fname) ∧
    (∀ inp : MW.RunInput,
      (MW.mwRun inp).extensionRan = true →
      (MW.mwRun inp).extPagesFetched =
        (MW.imagesPerPage * inp.pageCount - (MW.mwRun inp).total +
          MW.imagesPerPage - 1) / MW.imagesPerPage) ∧
    (∀ (asset : String → MW.AssetResp) (existing : List String)
        (st : MW.ExtState) (url : String),
      MW.isNeededExt existing st.downloadedFiles (MW.basename url) = true →
      (asset url).status = 200 →
      (MW.extImageStep asset existing st url).d = st.d + 1 ∧
      (MW.extImageStep asset existing st url).u = st.u + 1 ∧
      (MW.extImageStep asset existing st url).total = st.total) := by
  refine ⟨?_, ?_, ?_, ?_⟩
  · intro inp hall
    have hok := MW.enumeratePages_ok inp.fetch (List.range' 1 inp.pageCount)
      (by intro q hq; rw [List.mem_range'_1] at hq
          exact hall q hq.1 (by omega))
    have hnone : (MW.enumeratePages inp.fetch
        (List.range' 1 inp.pageCount)).failStatus = none := by
      rw [hok]
    rw [MW.mwRun_none inp hnone]
    exact MW.mwRunOk_extension_iff inp _ _
  · intro existing downloadedFiles fname
    rfl
  · intro inp hE
    rcases hfs : (MW.enumeratePages inp.fetch
        (List.range' 1 inp.pageCount)).failStatus with _ | s
    · rw [MW.mwRun_none inp hfs] at hE ⊢
      exact MW.mwRunOk_ext_pages inp _ _ hE
    · rw [MW.mwRun_failed inp s hfs] at hE
      simp at hE
  · intro asset existing st url hneed hs
    simp only [MW.extImageStep, if_pos hneed, if_pos hs]
    exact ⟨trivial, trivial, trivial⟩

/-- Witness for C9 at a concrete input: one needed extension image whose
GET succeeds increments both counters and leaves the total unchanged. -/
theorem claim_C9_witness :
    (MW.extImageStep (fun _ => ⟨200⟩) [] ⟨0, 0, 0, 5, [], [], []⟩
      "http://img.test/wallhaven-p.jpg").d = 1 ∧
    (MW.extImageStep (fun _ => ⟨200⟩) [] ⟨0, 0, 0, 5, [], [], []⟩
      "http://img.test/wallhaven-p.jpg").u = 1 ∧
    (MW.extImageStep (fun _ => ⟨200⟩) [] ⟨0, 0, 0, 5, [], [], []⟩
      "http://img.test/wallhaven-p.jpg").total = 5 :=
  claim_C9.2.2.2 (fun _ => ⟨200⟩) [] ⟨0, 0, 0, 5, [], [], []⟩
    "http://img.test/wallhaven-p.jpg" (by decide) (by decide)

/-- Claim C10 (confirmed): the pooled variant's `existing_files` set is
exactly the destination-directory names that start with "wallhaven-" and
end with ".jpg" or ".png"; any file whose name does not match the pattern
is invisible to the dedup test, so a descriptor bearing that filename is
classified as needed and kept for scheduling (in a fresh run, where
`downloaded_files` does not already contain it), and a download to that
name overwrites the existing file (the target is opened with 'wb'). -/
theorem claim_C10 (dirListing downloadedFiles : List String) (f : String)
    (hpat : MW.wallhavenPattern f = false)
    (hdl : f ∉ downloadedFiles) :
    (∀ g : String, g ∈ MW.existingFiles dirListing ↔
      (g ∈ dirListing ∧ MW.wallhavenPattern g = true)) ∧
    f ∉ MW.existingFiles dirListing ∧
    MW.isNeededDedup (MW.existingFiles dirListing) downloadedFiles f =
      true ∧
    (∀ (total dup : Nat) (urls : List String) (url : String),
      url ∈ urls → MW.basename url = f →
      url ∈ (MW.dedupPhase (MW.existingFiles dirListing) downloadedFiles
        total urls dup).uniqueUrls) ∧
    (∀ (disk : String → Option String) (body : String),
      MW.writeDisk disk f body f = some body) := by
  have hmem : ∀ g : String, g ∈ MW.existingFiles dirListing ↔
      (g ∈ dirListing ∧ MW.wallhavenPattern g = true) := by
    intro g
    simp [MW.existingFiles, List.mem_filter]
  have hnot : f ∉ MW.existingFiles dirListing := by
    intro hf
    have hc := (hmem f).mp hf
    rw [hpat] at hc
    exact absurd hc.2 (by simp)
  have hneed : MW.isNeededDedup (MW.existingFiles dirListing)
      downloadedFiles f = true := by
    simp [MW.isNeededDedup, hnot, hdl]
  refine ⟨hmem, hnot, hneed, ?_, ?_⟩
  · intro total dup urls url hmemu hbase
    exact MW.dedupPhase_keeps _ _ total urls dup url hmemu
      (by rw [hbase]; exact hneed)
  · intro disk body
    simp [MW.writeDisk]

/-- Witness for C10 at a concrete input: "photo.jpeg" sits in the
destination directory but does not match the pattern, so it is not in
`existing_files` and its descriptor is kept for download. -/
theorem claim_C10_witness :
    MW.isNeededDedup (MW.existingFiles ["photo.jpeg", "wallhaven-a.jpg"]) []
      "photo.jpeg" = true ∧
    "http://img.test/photo.jpeg" ∈
      (MW.dedupPhase (MW.existingFiles ["photo.jpeg", "wallhaven-a.jpg"]) []
        3 ["http://img.test/photo.jpeg"] 0).uniqueUrls :=
  ⟨(claim_C10 ["photo.jpeg", "wallhaven-a.jpg"] [] "photo.jpeg" (by decide)
      (by simp)).2.2.1,
   (claim_C10 ["photo.jpeg", "wallhaven-a.jpg"] [] "photo.jpeg" (by decide)
      (by simp)).2.2.2.1 3 0 ["http://img.test/photo.jpeg"]
      "http://img.test/photo.jpeg" (by simp) (by decide)⟩
